import Mathlib

/-!
Verification of the probe-attachment and readout subsystem of the `Monitor`
process (`src/lava/proc/monitor/process.py`).

The Python class is embedded shallowly:

* Python dictionaries become association lists (`Dict`), with `dset`
  mirroring Python item assignment (overwrite in place if the key exists,
  append at the end otherwise) and `dget` mirroring subscript lookup.
* The dynamically created attributes of the Monitor instance are split by
  type, exactly as `_find_attr_by_type` partitions them: `refPortAttrs`
  (RefPort objects), `inPortAttrs` (InPort objects) and `vars` (Var
  objects).  `setattr(self, name, obj)` becomes `dset` on the matching map.
* A Python exception is modelled by a `Bool` success flag (for `probe`,
  which mutates `self` before it can raise) and by `Option` (for
  `get_data`, whose failures would be `KeyError`/`AttributeError`).
-/

/-- Association-list dictionary, the embedding of a Python `dict`. -/
abbrev Dict (κ : Type) (α : Type) := List (κ × α)

/-- Python `d[k]` read: first binding of `k`, if any. -/
def dget {κ α : Type} [DecidableEq κ] : Dict κ α → κ → Option α
  | [], _ => none
  | (k', v) :: rest, k => if k' = k then some v else dget rest k

/-- Python `d[k] = v`: overwrite the binding in place if `k` is present,
otherwise append the new binding at the end (Python dict insertion order). -/
def dset {κ α : Type} [DecidableEq κ] : Dict κ α → κ → α → Dict κ α
  | [], k, v => [(k, v)]
  | (k', v') :: rest, k, v =>
    if k' = k then (k, v) :: rest else (k', v') :: dset rest k v

/-- Kind of a probe target: a `Var`, an `OutPort`, or anything else
(e.g. an `InPort`), mirroring the `isinstance` dispatch in `probe`. -/
inductive TKind : Type
  | var
  | outPort
  | inPort
deriving DecidableEq

/-- A probe target: `target.shape`, `target.process.name` and `target.name`
as consumed by `Monitor.probe`, plus the kind the `isinstance` tests see. -/
structure Target : Type where
  kind : TKind
  shape : List Nat
  procName : String
  name : String
deriving DecidableEq

/-- The value held by a Var or stored in the data dictionary: either the
scalar placeholder `0` written by `probe`, or an array (shape + elements
in row-major order) as returned by `Var.get()`. -/
inductive Value : Type
  | int (n : Int)
  | arr (shape : List Nat) (elems : List Int)
deriving DecidableEq

/-- The zero-filled array of the given shape: `Var(shape=..., init=0)`. -/
def zerosVal (shape : List Nat) : Value :=
  .arr shape (List.replicate shape.prod 0)

/-- A `Var` object of the Monitor process: its shape and current contents
(`Var.get()` returns `val`). -/
structure PVar : Type where
  shape : List Nat
  val : Value
deriving DecidableEq

/-- `Var(shape=shape, init=0)`. -/
def mkVar (shape : List Nat) : PVar :=
  { shape := shape, val := zerosVal shape }

/-- A `RefPort` or `InPort` object: its shape and, once `connect_var` /
`connect_from` has run, the `(process name, entity name)` it is wired to. -/
structure Port : Type where
  shape : List Nat
  conn : Option (String × String)
deriving DecidableEq

/-- The result-store dictionary `self.data`:
process name ↦ (var/out-port name ↦ value). -/
abbrev DataDict := Dict String (Dict String Value)

/-- The state of a `Monitor` instance.  `refPorts`, `varsData1`, `inPorts`,
`varsData2`, `n_ref_ports` and `n_in_ports` are the entries of
`self.proc_params`; `target_names` is `self.target_names`; the three
attribute maps hold the dynamically created port/Var attributes; the four
`new_*_name` fields are the instance attributes assigned at the top of
`post_init` and `probe`. -/
structure Monitor : Type where
  data : DataDict
  refPorts : List String
  varsData1 : List String
  inPorts : List String
  varsData2 : List String
  n_ref_ports : Nat
  n_in_ports : Nat
  target_names : Dict String (String × String)
  refPortAttrs : Dict String Port
  inPortAttrs : Dict String Port
  vars : Dict String PVar
  new_ref_port_name : String
  new_var_read_name : String
  new_in_port_name : String
  new_out_read_name : String
deriving DecidableEq

/-- `"ref_port_" + str(c)`. -/
def refName (c : Nat) : String := "ref_port_" ++ Nat.repr c

/-- `"var_read_" + str(c)`. -/
def varReadName (c : Nat) : String := "var_read_" ++ Nat.repr c

/-- `"in_port_" + str(c)`. -/
def inName (c : Nat) : String := "in_port_" ++ Nat.repr c

/-- `"out_read_" + str(c)`. -/
def outReadName (c : Nat) : String := "out_read_" ++ Nat.repr c

/-- `Monitor.__init__` followed by `post_init`: empty data dictionary,
empty registry lists, zero counters, empty `target_names`, and the four
prototypical attributes `ref_port_0 : RefPort((1,))`,
`var_read_0 : Var((1,), init=0)`, `in_port_0 : InPort((1,))`,
`out_read_0 : Var((1,), init=0)`. -/
def initMonitor : Monitor :=
  { data := []
    refPorts := []
    varsData1 := []
    inPorts := []
    varsData2 := []
    n_ref_ports := 0
    n_in_ports := 0
    target_names := []
    refPortAttrs := dset [] (refName 0) { shape := [1], conn := none }
    inPortAttrs := dset [] (inName 0) { shape := [1], conn := none }
    vars := dset (dset [] (varReadName 0) (mkVar [1])) (outReadName 0) (mkVar [1])
    new_ref_port_name := refName 0
    new_var_read_name := varReadName 0
    new_in_port_name := inName 0
    new_out_read_name := outReadName 0 }

/-- `getattr(self, k).connect_var(target)` / `.connect_from(target)`:
record on the port object named `k` the target it is wired to. -/
def connectPort (d : Dict String Port) (k : String) (tgt : String × String) :
    Dict String Port :=
  match dget d k with
  | some p => dset d k { p with conn := some tgt }
  | none => d

/-- `Monitor.probe(target, num_steps)`.  Returns the mutated state and a
success flag; `false` means the `TypeError` at the end of the dispatch was
raised (the mutations made before the `raise` statement remain, exactly as
in Python).  Following the source line by line:

1. the four `new_*_name` attributes are computed from the current counters;
2. a `RefPort(shape=target.shape)`, a `Var((target.shape[0], num_steps),
   init=0)`, an `InPort(shape=target.shape)` and a second such `Var` are
   created via `setattr` — unconditionally, whatever the target kind;
3. all four names are appended to `proc_params["RefPorts"]`, `["VarsData1"]`,
   `["InPorts"]`, `["VarsData2"]` — again unconditionally;
4. the `isinstance` dispatch increments the matching counter, connects the
   matching port and records the target in `target_names`; any other kind
   raises `TypeError`;
5. `self.data[process.name] = {}` then
   `self.data[process.name][target.name] = 0`. -/
def probe (m : Monitor) (t : Target) (numSteps : Nat) : Monitor × Bool :=
  let nr := refName m.n_ref_ports
  let nv := varReadName m.n_ref_ports
  let ni := inName m.n_in_ports
  let nO := outReadName m.n_in_ports
  let bufShape := [t.shape.headD 0, numSteps]
  let m1 : Monitor :=
    { m with
      new_ref_port_name := nr
      new_var_read_name := nv
      new_in_port_name := ni
      new_out_read_name := nO
      refPortAttrs := dset m.refPortAttrs nr { shape := t.shape, conn := none }
      inPortAttrs := dset m.inPortAttrs ni { shape := t.shape, conn := none }
      vars := dset (dset m.vars nv (mkVar bufShape)) nO (mkVar bufShape)
      refPorts := m.refPorts ++ [nr]
      varsData1 := m.varsData1 ++ [nv]
      inPorts := m.inPorts ++ [ni]
      varsData2 := m.varsData2 ++ [nO] }
  match t.kind with
  | .var =>
    let m2 : Monitor :=
      { m1 with
        n_ref_ports := m1.n_ref_ports + 1
        refPortAttrs := connectPort m1.refPortAttrs nr (t.procName, t.name)
        target_names := dset m1.target_names nv (t.procName, t.name) }
    ({ m2 with data := dset m2.data t.procName (dset [] t.name (.int 0)) }, true)
  | .outPort =>
    let m2 : Monitor :=
      { m1 with
        n_in_ports := m1.n_in_ports + 1
        inPortAttrs := connectPort m1.inPortAttrs ni (t.procName, t.name)
        target_names := dset m1.target_names nO (t.procName, t.name) }
    ({ m2 with data := dset m2.data t.procName (dset [] t.name (.int 0)) }, true)
  | .inPort => (m1, false)

/-- Modelled from the spec: one mirroring step of the external engine
(spec sections 4.2 and 5), which writes a value into one of the Monitor's
data-storing Vars.  The engine is an external collaborator not present in
`src/`; all the embedding needs is that it may replace the contents of an
existing Var attribute and touches nothing else. -/
def writeVar (m : Monitor) (k : String) (v : Value) : Monitor :=
  match dget m.vars k with
  | some pv => { m with vars := dset m.vars k { pv with val := v } }
  | none => m

/-- One iteration of a readout loop of `get_data`:
`data_var_name = ls[i]`, `data_var = getattr(self, data_var_name)`,
`target_name = self.target_names[data_var_name]`,
`self.data[target_name[0]][target_name[1]] = data_var.get()`.
`none` models the `IndexError` / `AttributeError` / `KeyError` the
corresponding Python line would raise. -/
def fetchOne (m : Monitor) (ls : List String) (i : Nat) : Option Monitor :=
  match ls[i]? with
  | none => none
  | some nm =>
    match dget m.vars nm with
    | none => none
    | some pv =>
      match dget m.target_names nm with
      | none => none
      | some (p, e) =>
        match dget m.data p with
        | none => none
        | some inner => some { m with data := dset m.data p (dset inner e pv.val) }

/-- A readout loop of `get_data` over the given list of indices. -/
def loopFetch (m : Monitor) (ls : List String) : List Nat → Option Monitor
  | [] => some m
  | i :: is =>
    match fetchOne m ls i with
    | none => none
    | some m' => loopFetch m' ls is

/-- `Monitor.get_data()`: drain the data-storing Vars listed in
`proc_params["VarsData2"]` (indices `0 .. n_in_ports-1`) and then those in
`proc_params["VarsData1"]` (indices `0 .. n_ref_ports-1`) into `self.data`,
and return `self.data`. -/
def get_data (m : Monitor) : Option (Monitor × DataDict) :=
  match loopFetch m m.varsData2 (List.range m.n_in_ports) with
  | none => none
  | some m1 =>
    match loopFetch m1 m1.varsData1 (List.range m1.n_ref_ports) with
    | none => none
    | some m2 => some (m2, m2.data)

/-- Run a sequence of `probe` calls, keeping whatever state each call
leaves behind (as Python does whether or not the call raised). -/
def runProbes (m : Monitor) : List (Target × Nat) → Monitor
  | [] => m
  | (t, n) :: rest => runProbes (probe m t n).1 rest

/-- The four name attributes most recently assigned by `post_init`/`probe`
(`self.new_ref_port_name`, `self.new_var_read_name`, `self.new_in_port_name`,
`self.new_out_read_name`), i.e. the names generated by the last call. -/
def genNamesOf (m : Monitor) : List String :=
  [m.new_ref_port_name, m.new_var_read_name, m.new_in_port_name,
   m.new_out_read_name]

/-- All names generated over a sequence of `probe` calls: each call
computes all four `new_*_name` attributes (lines 145-152 of the source),
whatever the target kind. -/
def allGenNames (m : Monitor) : List (Target × Nat) → List String
  | [] => []
  | (t, n) :: rest =>
    genNamesOf (probe m t n).1 ++ allGenNames (probe m t n).1 rest

/-- The tap/buffer names a `probe` call actually uses for its own probe:
the RefPort/Var pair for a `Var` target (connected on line 192, recorded
on line 195), the InPort/Var pair for an `OutPort` target (lines 204,
207), nothing for a rejected target. -/
def ownNamesOf (m : Monitor) (t : Target) : List String :=
  match t.kind with
  | .var => [m.new_ref_port_name, m.new_var_read_name]
  | .outPort => [m.new_in_port_name, m.new_out_read_name]
  | .inPort => []

/-- The own-kind tap/buffer names of each probe over a sequence of
`probe` calls, in attachment order. -/
def ownGenNames (m : Monitor) : List (Target × Nat) → List String
  | [] => []
  | (t, n) :: rest =>
    ownNamesOf (probe m t n).1 t ++ ownGenNames (probe m t n).1 rest

/-- Follows the spec's words (section 8, *Naming uniqueness*): per-kind
names are generated as `prefix_counter` with the current value of that
kind's counter, VAR-kind probes drawing from the VAR counter `r` and
CHANNEL-kind probes from the CHANNEL counter `i`, each counter advancing
independently in attachment order. -/
def specOwnNames : List TKind → Nat → Nat → List String
  | [], _, _ => []
  | .var :: ks, r, i => refName r :: varReadName r :: specOwnNames ks (r + 1) i
  | .outPort :: ks, r, i => inName i :: outReadName i :: specOwnNames ks r (i + 1)
  | .inPort :: ks, r, i => specOwnNames ks r i

/-- States reachable from a fresh Monitor by successful `probe` calls
only (the graph-construction phase, before any execution step). -/
inductive ReachableP : Monitor → Prop
  | init : ReachableP initMonitor
  | step : ∀ {m t n}, ReachableP m → (probe m t n).2 = true →
      ReachableP (probe m t n).1

/-- States reachable from a fresh Monitor by successful `probe` calls
interleaved with engine write steps. -/
inductive Reachable : Monitor → Prop
  | init : Reachable initMonitor
  | probeStep : ∀ {m t n}, Reachable m → (probe m t n).2 = true →
      Reachable (probe m t n).1
  | writeStep : ∀ {m k v}, Reachable m → Reachable (writeVar m k v)

/-- The buffer name `nm` can be read out: the Var attribute exists, the
readout index has an entry for it, and the owning process already has an
inner dictionary in `self.data`. -/
def goodAt (m : Monitor) (nm : String) : Prop :=
  (dget m.vars nm).isSome = true ∧
  ∃ p e, dget m.target_names nm = some (p, e) ∧ (dget m.data p).isSome = true

/-- Shape of a registry name list: every entry is `f c` for a counter
value `c` bounded by its position and by the current counter `cnt`. -/
def listShape (f : Nat → String) (cnt : Nat) (ls : List String) : Prop :=
  ∀ i nm, ls[i]? = some nm → ∃ c, nm = f c ∧ c ≤ i ∧ c ≤ cnt

/-- The state invariant maintained by `probe` and the engine writes; it is
what makes `get_data` total on reachable states. -/
def MonInv (m : Monitor) : Prop :=
  m.n_in_ports ≤ m.varsData2.length ∧
  m.n_ref_ports ≤ m.varsData1.length ∧
  listShape outReadName m.n_in_ports m.varsData2 ∧
  listShape varReadName m.n_ref_ports m.varsData1 ∧
  (∀ c, c < m.n_in_ports → goodAt m (outReadName c)) ∧
  (∀ c, c < m.n_ref_ports → goodAt m (varReadName c)) ∧
  (m.n_in_ports = 0 ∧ m.n_ref_ports = 0 → m.data = [])

/-- A value is unwritten content: the scalar placeholder `0` or a
zero-filled array. -/
def ValOk (v : Value) : Prop :=
  v = .int 0 ∨ ∃ sh, v = zerosVal sh

/-- Before any execution step every Var still holds its zero
initialization and every result-store entry is the placeholder `0`. -/
def ZInv (m : Monitor) : Prop :=
  (∀ nm pv, dget m.vars nm = some pv → pv.val = zerosVal pv.shape) ∧
  (∀ p inner, dget m.data p = some inner →
    ∀ e v, dget inner e = some v → v = .int 0)

/-- The write `(owner, entity, value)` performed by iteration `i` of a
readout loop, as determined by the loop-independent state. -/
def writeOf (vs : Dict String PVar) (tns : Dict String (String × String))
    (ls : List String) (i : Nat) : Option (String × String × Value) :=
  match ls[i]? with
  | none => none
  | some nm =>
    match dget vs nm, dget tns nm with
    | some pv, some (p, e) => some (p, e, pv.val)
    | _, _ => none

/-- Apply one readout write to the result store (a no-op if the owner is
absent; `fetchOne` fails in that case instead). -/
def applyW (d : DataDict) (w : String × String × Value) : DataDict :=
  match dget d w.1 with
  | some inner => dset d w.1 (dset inner w.2.1 w.2.2)
  | none => d

/-- Apply a list of readout writes from left to right. -/
def applyWs (d : DataDict) (ws : List (String × String × Value)) : DataDict :=
  ws.foldl applyW d

/-- The writes performed by a readout loop over the given indices. -/
def wsOfList (vs : Dict String PVar) (tns : Dict String (String × String))
    (ls : List String) : List Nat → Option (List (String × String × Value))
  | [] => some []
  | i :: is =>
    match writeOf vs tns ls i with
    | none => none
    | some w =>
      match wsOfList vs tns ls is with
      | none => none
      | some ws => some (w :: ws)

/-- The Monitor together with the Python object identity of `self.data`:
`dataRef` is the address of the dictionary object bound to `self.data`,
and `heap` maps addresses to current dictionary contents.  The source
binds `self.data` exactly once (`self.data = {}` in `__init__`, line 74);
`probe` and `get_data` only ever mutate it through item assignment, so the
address never changes. -/
structure HMonitor : Type where
  mon : Monitor
  dataRef : Nat
  heap : Dict Nat DataDict
  nextRef : Nat
deriving DecidableEq

/-- `__init__` + `post_init` with the allocation of the `self.data`
object made explicit: a fresh empty dictionary is allocated and its
address bound to `dataRef`. -/
def initH : HMonitor :=
  { mon := initMonitor, dataRef := 0, heap := [(0, [])], nextRef := 1 }

/-- `probe` on the heap model: the underlying state change is `probe`;
since its only writes to `self.data` are the item assignments on lines
218-219, the dictionary object at `dataRef` is updated in place and no
rebinding happens. -/
def probeH (s : HMonitor) (t : Target) (n : Nat) : HMonitor × Bool :=
  let r := probe s.mon t n
  ({ s with mon := r.1, heap := dset s.heap s.dataRef r.1.data }, r.2)

/-- `get_data` on the heap model: the loops write through item assignment
only (lines 241, 249), mutating the object at `dataRef` in place, and
line 251 returns `self.data` itself — i.e. the reference, not a copy. -/
def getDataH (s : HMonitor) : Option (HMonitor × Nat) :=
  match get_data s.mon with
  | none => none
  | some (m', _) =>
    some ({ s with mon := m', heap := dset s.heap s.dataRef m'.data }, s.dataRef)

/-- Most-significant-digit-first decimal digits of a natural number; the
reference function `Nat.repr` is proved equal to. -/
def decDigs : Nat → List Char
  | n =>
    if _h : n < 10 then [Nat.digitChar n]
    else decDigs (n / 10) ++ [Nat.digitChar (n % 10)]
termination_by n => n
decreasing_by
  exact Nat.div_lt_self (by omega) (by omega)

/-- Numeric value of a decimal digit character. -/
def digitVal (c : Char) : Nat := c.toNat - 48

/-- Value of a most-significant-first decimal digit string. -/
def chVal (l : List Char) : Nat :=
  l.foldl (fun a c => a * 10 + digitVal c) 0

/-- Nested lookup `d[p][e]` in the result store. -/
def dget2 (d : DataDict) (p e : String) : Option Value :=
  match dget d p with
  | some inner => dget inner e
  | none => none

/-- Concrete targets used in the concrete evaluations below. -/
def tgtVarU : Target := { kind := .var, shape := [1], procName := "procP", name := "u" }

/-- A second Var of the same process as `tgtVarU`. -/
def tgtVarV : Target := { kind := .var, shape := [1], procName := "procP", name := "v" }

/-- An OutPort of a different process. -/
def tgtOutQ : Target := { kind := .outPort, shape := [1], procName := "procQ", name := "q" }

/-- An OutPort of the same process as `tgtVarU`. -/
def tgtOutX : Target := { kind := .outPort, shape := [1], procName := "procP", name := "x" }

/-- An unsupported target (an input channel). -/
def tgtIn : Target := { kind := .inPort, shape := [2], procName := "procR", name := "r" }

/-- A Var target of shape `(4,)`. -/
def tgtVar4 : Target := { kind := .var, shape := [4], procName := "procA", name := "a" }

/-- A Var target of shape `(3,)`. -/
def tgtVar3 : Target := { kind := .var, shape := [3], procName := "procB", name := "b" }

/-! ### Dictionary lemmas -/

theorem dget_dset_self {κ α : Type} [DecidableEq κ] (d : Dict κ α) (k : κ) (v : α) :
    dget (dset d k v) k = some v := by
  induction d with
  | nil => simp [dset, dget]
  | cons hd tl ih =>
    obtain ⟨k', v'⟩ := hd
    by_cases h : k' = k
    · simp [dset, h, dget]
    · simp [dset, h, dget, ih]

theorem dget_dset_ne {κ α : Type} [DecidableEq κ] (d : Dict κ α) (k k' : κ) (v : α)
    (h : k ≠ k') : dget (dset d k v) k' = dget d k' := by
  induction d with
  | nil => simp [dset, dget, h]
  | cons hd tl ih =>
    obtain ⟨k₀, v₀⟩ := hd
    by_cases h0 : k₀ = k
    · subst h0
      simp [dset, dget, h]
    · by_cases h1 : k₀ = k'
      · subst h1
        simp [dset, h0, dget]
      · simp [dset, h0, dget, h1, ih]

theorem isSome_dget_dset {κ α : Type} [DecidableEq κ] (d : Dict κ α) (k k' : κ) (v : α)
    (h : (dget d k').isSome = true) : (dget (dset d k v) k').isSome = true := by
  by_cases e : k = k'
  · subst e
    simp [dget_dset_self]
  · rwa [dget_dset_ne d k k' v e]

theorem isSome_dget_dset_eq {κ α : Type} [DecidableEq κ] (d : Dict κ α) (k k' : κ) (v : α)
    (h : (dget d k).isSome = true) :
    (dget (dset d k v) k').isSome = (dget d k').isSome := by
  by_cases e : k = k'
  · subst e
    simp [dget_dset_self, h]
  · rw [dget_dset_ne d k k' v e]

theorem dset_dset_self {κ α : Type} [DecidableEq κ] (d : Dict κ α) (k : κ) (v w : α) :
    dset (dset d k v) k w = dset d k w := by
  induction d with
  | nil => simp [dset]
  | cons hd tl ih =>
    obtain ⟨k', v'⟩ := hd
    by_cases h : k' = k
    · simp [dset, h]
    · simp [dset, h, ih]

theorem dset_eq_self {κ α : Type} [DecidableEq κ] (d : Dict κ α) (k : κ) (v : α)
    (h : dget d k = some v) : dset d k v = d := by
  induction d with
  | nil => simp [dget] at h
  | cons hd tl ih =>
    obtain ⟨k₀, v₀⟩ := hd
    by_cases h0 : k₀ = k
    · subst h0
      simp [dget] at h
      simp [dset, h]
    · simp [dget, h0] at h
      simp [dset, h0, ih h]

theorem dset_comm_of_isSome {κ α : Type} [DecidableEq κ] (d : Dict κ α) (k k' : κ)
    (v w : α) (h : k ≠ k') (hk : (dget d k).isSome = true) :
    dset (dset d k v) k' w = dset (dset d k' w) k v := by
  induction d with
  | nil => simp [dget] at hk
  | cons hd tl ih =>
    obtain ⟨k₀, v₀⟩ := hd
    by_cases h0 : k₀ = k
    · subst h0
      simp [dset, h, Ne.symm h]
    · by_cases h1 : k₀ = k'
      · subst h1
        simp [dset, h0, Ne.symm h]
      · simp [dget, h0] at hk
        simp [dset, h0, h1, ih hk]

/-! ### Injectivity of the decimal representation used in generated names -/

theorem digitVal_digitChar (d : Nat) (h : d < 10) :
    digitVal (Nat.digitChar d) = d := by
  interval_cases d <;> decide

theorem chVal_append_singleton (l : List Char) (c : Char) :
    chVal (l ++ [c]) = chVal l * 10 + digitVal c := by
  simp [chVal, List.foldl_append]

theorem chVal_decDigs (n : Nat) : chVal (decDigs n) = n := by
  induction n using Nat.strong_induction_on with
  | _ n ih =>
    rw [decDigs]
    split
    · next h =>
      simp [chVal, digitVal_digitChar n h]
    · next h =>
      rw [chVal_append_singleton, ih (n / 10) (by omega),
        digitVal_digitChar _ (by omega)]
      omega

theorem decDigs_injective (a b : Nat) (h : decDigs a = decDigs b) : a = b := by
  rw [← chVal_decDigs a, ← chVal_decDigs b, h]

theorem toDigitsCore_eq_decDigs (fuel : Nat) :
    ∀ n ds, n < fuel → Nat.toDigitsCore 10 fuel n ds = decDigs n ++ ds := by
  induction fuel with
  | zero => omega
  | succ fuel ih =>
    intro n ds _
    simp only [Nat.toDigitsCore]
    by_cases h0 : n / 10 = 0
    · rw [if_pos h0, decDigs]
      have hn : n < 10 := by omega
      rw [dif_pos hn, Nat.mod_eq_of_lt hn]
      simp
    · rw [if_neg h0, ih (n / 10) _ (by omega)]
      conv_rhs => rw [decDigs]
      rw [dif_neg (by omega : ¬ n < 10)]
      simp

theorem repr_eq_decDigs (n : Nat) : Nat.repr n = (decDigs n).asString := by
  unfold Nat.repr Nat.toDigits
  rw [toDigitsCore_eq_decDigs (n + 1) n [] (Nat.lt_succ_self n)]
  simp [List.asString]

theorem repr_injective (a b : Nat) (h : Nat.repr a = Nat.repr b) : a = b := by
  rw [repr_eq_decDigs, repr_eq_decDigs] at h
  have hd := congrArg String.data h
  simp only [List.asString] at hd
  exact decDigs_injective a b hd

/-! ### Generated-name lemmas -/

theorem strAppend_cancel {p s t : String} (h : p ++ s = p ++ t) : s = t := by
  have hd := congrArg String.data h
  simp only [String.data_append] at hd
  exact String.ext (List.append_cancel_left hd)

theorem append_repr_ne (p q : String) (hl : p.data.length = q.data.length)
    (hpq : p ≠ q) (a b : Nat) : p ++ Nat.repr a ≠ q ++ Nat.repr b := by
  intro h
  have hd := congrArg String.data h
  simp only [String.data_append] at hd
  exact hpq (String.ext (List.append_inj hd hl).1)

theorem append_repr_ne_head (p q : String) (c d : Char) (tp tq : List Char)
    (hp : p.data = c :: tp) (hq : q.data = d :: tq) (hcd : c ≠ d) (a b : Nat) :
    p ++ Nat.repr a ≠ q ++ Nat.repr b := by
  intro h
  have hd := congrArg String.data h
  simp only [String.data_append, hp, hq, List.cons_append] at hd
  injection hd with h1 _
  exact hcd h1

theorem refName_injective (a b : Nat) (h : refName a = refName b) : a = b :=
  repr_injective a b (strAppend_cancel h)

theorem varReadName_injective (a b : Nat) (h : varReadName a = varReadName b) : a = b :=
  repr_injective a b (strAppend_cancel h)

theorem inName_injective (a b : Nat) (h : inName a = inName b) : a = b :=
  repr_injective a b (strAppend_cancel h)

theorem outReadName_injective (a b : Nat) (h : outReadName a = outReadName b) : a = b :=
  repr_injective a b (strAppend_cancel h)

theorem refName_ne_varReadName (a b : Nat) : refName a ≠ varReadName b :=
  append_repr_ne "ref_port_" "var_read_" (by decide) (by decide) a b

theorem refName_ne_outReadName (a b : Nat) : refName a ≠ outReadName b :=
  append_repr_ne "ref_port_" "out_read_" (by decide) (by decide) a b

theorem varReadName_ne_outReadName (a b : Nat) : varReadName a ≠ outReadName b :=
  append_repr_ne "var_read_" "out_read_" (by decide) (by decide) a b

theorem inName_ne_refName (a b : Nat) : inName a ≠ refName b :=
  append_repr_ne_head "in_port_" "ref_port_" 'i' 'r' "n_port_".data "ef_port_".data
    rfl rfl (by decide) a b

theorem inName_ne_varReadName (a b : Nat) : inName a ≠ varReadName b :=
  append_repr_ne_head "in_port_" "var_read_" 'i' 'v' "n_port_".data "ar_read_".data
    rfl rfl (by decide) a b

theorem inName_ne_outReadName (a b : Nat) : inName a ≠ outReadName b :=
  append_repr_ne_head "in_port_" "out_read_" 'i' 'o' "n_port_".data "ut_read_".data
    rfl rfl (by decide) a b

/-! ### Characterization of one `probe` call -/

theorem connectPort_dset (d : Dict String Port) (k : String) (p : Port)
    (tgt : String × String) :
    connectPort (dset d k p) k tgt = dset d k { p with conn := some tgt } := by
  unfold connectPort
  rw [dget_dset_self]
  exact dset_dset_self d k p { shape := p.shape, conn := some tgt }

/-- Explicit form of a successful `probe` on a `Var` target. -/
theorem probe_var_eq (m : Monitor) (t : Target) (n : Nat) (h : t.kind = .var) :
    probe m t n =
    ({ data := dset m.data t.procName (dset [] t.name (.int 0)),
       refPorts := m.refPorts ++ [refName m.n_ref_ports],
       varsData1 := m.varsData1 ++ [varReadName m.n_ref_ports],
       inPorts := m.inPorts ++ [inName m.n_in_ports],
       varsData2 := m.varsData2 ++ [outReadName m.n_in_ports],
       n_ref_ports := m.n_ref_ports + 1,
       n_in_ports := m.n_in_ports,
       target_names := dset m.target_names (varReadName m.n_ref_ports)
         (t.procName, t.name),
       refPortAttrs := dset m.refPortAttrs (refName m.n_ref_ports)
         { shape := t.shape, conn := some (t.procName, t.name) },
       inPortAttrs := dset m.inPortAttrs (inName m.n_in_ports)
         { shape := t.shape, conn := none },
       vars := dset (dset m.vars (varReadName m.n_ref_ports)
           (mkVar [t.shape.headD 0, n])) (outReadName m.n_in_ports)
           (mkVar [t.shape.headD 0, n]),
       new_ref_port_name := refName m.n_ref_ports,
       new_var_read_name := varReadName m.n_ref_ports,
       new_in_port_name := inName m.n_in_ports,
       new_out_read_name := outReadName m.n_in_ports }, true) := by
  simp only [probe, h, connectPort_dset]

/-- Explicit form of a successful `probe` on an `OutPort` target. -/
theorem probe_out_eq (m : Monitor) (t : Target) (n : Nat) (h : t.kind = .outPort) :
    probe m t n =
    ({ data := dset m.data t.procName (dset [] t.name (.int 0)),
       refPorts := m.refPorts ++ [refName m.n_ref_ports],
       varsData1 := m.varsData1 ++ [varReadName m.n_ref_ports],
       inPorts := m.inPorts ++ [inName m.n_in_ports],
       varsData2 := m.varsData2 ++ [outReadName m.n_in_ports],
       n_ref_ports := m.n_ref_ports,
       n_in_ports := m.n_in_ports + 1,
       target_names := dset m.target_names (outReadName m.n_in_ports)
         (t.procName, t.name),
       refPortAttrs := dset m.refPortAttrs (refName m.n_ref_ports)
         { shape := t.shape, conn := none },
       inPortAttrs := dset m.inPortAttrs (inName m.n_in_ports)
         { shape := t.shape, conn := some (t.procName, t.name) },
       vars := dset (dset m.vars (varReadName m.n_ref_ports)
           (mkVar [t.shape.headD 0, n])) (outReadName m.n_in_ports)
           (mkVar [t.shape.headD 0, n]),
       new_ref_port_name := refName m.n_ref_ports,
       new_var_read_name := varReadName m.n_ref_ports,
       new_in_port_name := inName m.n_in_ports,
       new_out_read_name := outReadName m.n_in_ports }, true) := by
  simp only [probe, h, connectPort_dset]

/-- Explicit form of a rejected `probe` (target neither Var nor OutPort):
the mutations preceding the `raise TypeError` remain, nothing after it
runs. -/
theorem probe_in_eq (m : Monitor) (t : Target) (n : Nat) (h : t.kind = .inPort) :
    probe m t n =
    ({ m with
       refPorts := m.refPorts ++ [refName m.n_ref_ports],
       varsData1 := m.varsData1 ++ [varReadName m.n_ref_ports],
       inPorts := m.inPorts ++ [inName m.n_in_ports],
       varsData2 := m.varsData2 ++ [outReadName m.n_in_ports],
       refPortAttrs := dset m.refPortAttrs (refName m.n_ref_ports)
         { shape := t.shape, conn := none },
       inPortAttrs := dset m.inPortAttrs (inName m.n_in_ports)
         { shape := t.shape, conn := none },
       vars := dset (dset m.vars (varReadName m.n_ref_ports)
           (mkVar [t.shape.headD 0, n])) (outReadName m.n_in_ports)
           (mkVar [t.shape.headD 0, n]),
       new_ref_port_name := refName m.n_ref_ports,
       new_var_read_name := varReadName m.n_ref_ports,
       new_in_port_name := inName m.n_in_ports,
       new_out_read_name := outReadName m.n_in_ports }, false) := by
  simp only [probe, h]

/-- A `probe` call succeeds exactly on `Var` and `OutPort` targets. -/
theorem probe_succeeds_iff (m : Monitor) (t : Target) (n : Nat) :
    (probe m t n).2 = true ↔ t.kind ≠ .inPort := by
  cases h : t.kind
  · rw [probe_var_eq m t n h]
    simp
  · rw [probe_out_eq m t n h]
    simp
  · rw [probe_in_eq m t n h]
    simp

/-! ### C1 — counter / list alignment -/

/-- C1: the claimed alignment `len(RefPorts) == n_ref_ports` and
`len(InPorts) == n_in_ports` fails on the code.  `probe` appends a name to
all four registry lists on every call (source lines 164-170, before the
kind dispatch) but increments only the matching kind's counter (lines 189,
201).  After one successful OutPort probe the VAR-side list already has
one entry while the VAR counter is still `0`, contradicting both the claim
and the class docstring ("RefPorts: names of RefPorts created to monitor
target Vars", "n_ref_ports: number of created RefPorts"). -/
theorem c1_registry_misalignment :
    (probe initMonitor tgtOutQ 5).2 = true ∧
    (probe initMonitor tgtOutQ 5).1.refPorts.length = 1 ∧
    (probe initMonitor tgtOutQ 5).1.n_ref_ports = 0 ∧
    (probe initMonitor tgtOutQ 5).1.varsData1.length = 1 ∧
    (probe initMonitor tgtOutQ 5).1.inPorts.length = 1 ∧
    (probe initMonitor tgtOutQ 5).1.varsData2.length = 1 ∧
    (probe initMonitor tgtOutQ 5).1.n_in_ports = 1 :=
  ⟨rfl, rfl, rfl, rfl, rfl, rfl, rfl⟩

/-! ### C2 — rejection of unsupported targets -/

/-- C2 counterexample: probing an input channel does raise (`false` flag),
but the registry is *not* left unchanged: the `RefPorts` list (and the
three other name lists) each gained one entry before the `raise`. -/
theorem c2_not_atomic :
    (probe initMonitor tgtIn 5).2 = false ∧
    initMonitor.refPorts.length = 0 ∧
    (probe initMonitor tgtIn 5).1.refPorts.length = 1 ∧
    (probe initMonitor tgtIn 5).1.varsData1.length = 1 ∧
    (probe initMonitor tgtIn 5).1.inPorts.length = 1 ∧
    (probe initMonitor tgtIn 5).1.varsData2.length = 1 :=
  ⟨rfl, rfl, rfl, rfl, rfl, rfl⟩

/-- C2 (amended): probing a target that is neither a Var nor an OutPort
raises `TypeError`; the two counters, the readout index and the result
store are unchanged, but each of the four registry name lists gains
exactly one (current-counter) name, because the appends precede the kind
dispatch. -/
theorem c2_reject_unsupported (m : Monitor) (t : Target) (n : Nat)
    (h : t.kind = .inPort) :
    (probe m t n).2 = false ∧
    (probe m t n).1.n_ref_ports = m.n_ref_ports ∧
    (probe m t n).1.n_in_ports = m.n_in_ports ∧
    (probe m t n).1.target_names = m.target_names ∧
    (probe m t n).1.data = m.data ∧
    (probe m t n).1.refPorts = m.refPorts ++ [refName m.n_ref_ports] ∧
    (probe m t n).1.varsData1 = m.varsData1 ++ [varReadName m.n_ref_ports] ∧
    (probe m t n).1.inPorts = m.inPorts ++ [inName m.n_in_ports] ∧
    (probe m t n).1.varsData2 = m.varsData2 ++ [outReadName m.n_in_ports] := by
  rw [probe_in_eq m t n h]
  exact ⟨rfl, rfl, rfl, rfl, rfl, rfl, rfl, rfl, rfl⟩

/-- Witness for `c2_reject_unsupported` at a concrete input. -/
theorem c2_reject_unsupported_witness :
    tgtIn.kind = .inPort ∧
    ((probe initMonitor tgtIn 5).2 = false ∧
     (probe initMonitor tgtIn 5).1.n_ref_ports = initMonitor.n_ref_ports ∧
     (probe initMonitor tgtIn 5).1.n_in_ports = initMonitor.n_in_ports ∧
     (probe initMonitor tgtIn 5).1.target_names = initMonitor.target_names ∧
     (probe initMonitor tgtIn 5).1.data = initMonitor.data ∧
     (probe initMonitor tgtIn 5).1.refPorts =
       initMonitor.refPorts ++ [refName initMonitor.n_ref_ports] ∧
     (probe initMonitor tgtIn 5).1.varsData1 =
       initMonitor.varsData1 ++ [varReadName initMonitor.n_ref_ports] ∧
     (probe initMonitor tgtIn 5).1.inPorts =
       initMonitor.inPorts ++ [inName initMonitor.n_in_ports] ∧
     (probe initMonitor tgtIn 5).1.varsData2 =
       initMonitor.varsData2 ++ [outReadName initMonitor.n_in_ports]) :=
  ⟨rfl, c2_reject_unsupported initMonitor tgtIn 5 rfl⟩

/-! ### C5 — placeholder entries in the result store -/

/-- C5 counterexample: probing `procP.u` creates the placeholder
`data["procP"]["u"] = 0`, but a second probe of `procP.v` replaces the
whole inner dictionary (`self.data[name] = {}` runs unconditionally on
line 218), erasing `u`'s entry — so earlier entries are *not* left in
place, and after the sequence the probed entity `u` is absent. -/
theorem c5_placeholder_erased :
    (probe initMonitor tgtVarU 5).2 = true ∧
    dget2 (probe initMonitor tgtVarU 5).1.data "procP" "u" = some (.int 0) ∧
    (probe (probe initMonitor tgtVarU 5).1 tgtVarV 5).2 = true ∧
    dget2 (probe (probe initMonitor tgtVarU 5).1 tgtVarV 5).1.data "procP" "u" =
      none :=
  ⟨rfl, rfl, rfl, rfl⟩

/-- C5 (amended): every successful `probe` sets the owner's inner
dictionary to a fresh one holding only the current entity's placeholder
`0` — entries of *other* processes are left in place, but previously
probed entities of the *same* process are erased until the next
`get_data`. -/
theorem c5_probe_resets_process_entry (m : Monitor) (t : Target) (n : Nat)
    (h : t.kind ≠ .inPort) :
    dget (probe m t n).1.data t.procName = some (dset [] t.name (.int 0)) ∧
    ∀ p, p ≠ t.procName → dget (probe m t n).1.data p = dget m.data p := by
  cases hk : t.kind
  · rw [probe_var_eq m t n hk]
    exact ⟨dget_dset_self _ _ _,
      fun p hp => dget_dset_ne _ _ _ _ (Ne.symm hp)⟩
  · rw [probe_out_eq m t n hk]
    exact ⟨dget_dset_self _ _ _,
      fun p hp => dget_dset_ne _ _ _ _ (Ne.symm hp)⟩
  · exact absurd hk h

/-- Witness for `c5_probe_resets_process_entry` at a concrete input. -/
theorem c5_probe_resets_process_entry_witness :
    tgtVarU.kind ≠ .inPort ∧
    (dget (probe initMonitor tgtVarU 5).1.data tgtVarU.procName =
       some (dset [] tgtVarU.name (.int 0)) ∧
     ∀ p, p ≠ tgtVarU.procName →
       dget (probe initMonitor tgtVarU 5).1.data p = dget initMonitor.data p) :=
  ⟨by decide, c5_probe_resets_process_entry initMonitor tgtVarU 5 (by decide)⟩

/-! ### C6 — taps created per probe -/

/-- C6 counterexample: a `Var` probe also creates a port of the *other*
kind.  On a fresh Monitor the prototypical `in_port_0` has shape `(1,)`;
after probing a Var of shape `(3,)`, the `in_port_0` attribute holds a
freshly constructed, unconnected `InPort` of shape `(3,)` (source line
160 runs unconditionally), so the call did create an extra port of the
other kind. -/
theorem c6_extra_port_created :
    (probe initMonitor tgtVar3 5).2 = true ∧
    dget initMonitor.inPortAttrs (inName 0) = some { shape := [1], conn := none } ∧
    dget (probe initMonitor tgtVar3 5).1.inPortAttrs (inName 0) =
      some { shape := [3], conn := none } :=
  ⟨rfl, rfl, rfl⟩

/-- C6 (amended): each successful `probe` creates exactly one tap of its
own kind, shaped to `target.shape` and connected to the target (RefPort
via `connect_var` for a Var, InPort via `connect_from` for an OutPort) —
but it also creates one unconnected port of the other kind with the same
shape, overwriting the attribute at that kind's current counter name. -/
theorem c6_own_tap_connected (m : Monitor) (t : Target) (n : Nat) :
    (t.kind = .var →
      dget (probe m t n).1.refPortAttrs (refName m.n_ref_ports) =
        some { shape := t.shape, conn := some (t.procName, t.name) } ∧
      dget (probe m t n).1.inPortAttrs (inName m.n_in_ports) =
        some { shape := t.shape, conn := none }) ∧
    (t.kind = .outPort →
      dget (probe m t n).1.inPortAttrs (inName m.n_in_ports) =
        some { shape := t.shape, conn := some (t.procName, t.name) } ∧
      dget (probe m t n).1.refPortAttrs (refName m.n_ref_ports) =
        some { shape := t.shape, conn := none }) := by
  constructor
  · intro hk
    rw [probe_var_eq m t n hk]
    exact ⟨dget_dset_self _ _ _, dget_dset_self _ _ _⟩
  · intro hk
    rw [probe_out_eq m t n hk]
    exact ⟨dget_dset_self _ _ _, dget_dset_self _ _ _⟩

/-- Witness for `c6_own_tap_connected` at a concrete input. -/
theorem c6_own_tap_connected_witness :
    (tgtVar3.kind = .var →
      dget (probe initMonitor tgtVar3 5).1.refPortAttrs
          (refName initMonitor.n_ref_ports) =
        some { shape := tgtVar3.shape, conn := some (tgtVar3.procName, tgtVar3.name) } ∧
      dget (probe initMonitor tgtVar3 5).1.inPortAttrs
          (inName initMonitor.n_in_ports) =
        some { shape := tgtVar3.shape, conn := none }) ∧
    (tgtVar3.kind = .outPort →
      dget (probe initMonitor tgtVar3 5).1.inPortAttrs
          (inName initMonitor.n_in_ports) =
        some { shape := tgtVar3.shape, conn := some (tgtVar3.procName, tgtVar3.name) } ∧
      dget (probe initMonitor tgtVar3 5).1.refPortAttrs
          (refName initMonitor.n_ref_ports) =
        some { shape := tgtVar3.shape, conn := none }) :=
  c6_own_tap_connected initMonitor tgtVar3 5

/-! ### C7 — sample-buffer shape and initialization -/

/-- C7: every successful `probe(target, num_steps)` allocates the probe's
data-storing Var with shape `(target.shape[0], num_steps)` and zero-filled
contents (`Var(shape=(target.shape[0], num_steps), init=0)`, source lines
156-157 and 161-162): `var_read_<c>` for a Var target and `out_read_<c>`
for an OutPort target, `c` being that kind's pre-increment counter. -/
theorem c7_buffer_shape (m : Monitor) (t : Target) (n : Nat)
    (_hpos : 0 < n) (_hk : t.kind ≠ .inPort) (_hsh : t.shape ≠ []) :
    (t.kind = .var →
      dget (probe m t n).1.vars (varReadName m.n_ref_ports) =
        some { shape := [t.shape.headD 0, n],
               val := zerosVal [t.shape.headD 0, n] }) ∧
    (t.kind = .outPort →
      dget (probe m t n).1.vars (outReadName m.n_in_ports) =
        some { shape := [t.shape.headD 0, n],
               val := zerosVal [t.shape.headD 0, n] }) := by
  constructor
  · intro h
    rw [probe_var_eq m t n h]
    show dget (dset (dset m.vars (varReadName m.n_ref_ports)
        (mkVar [t.shape.headD 0, n])) (outReadName m.n_in_ports)
        (mkVar [t.shape.headD 0, n])) (varReadName m.n_ref_ports) = _
    rw [dget_dset_ne _ _ _ _
      (Ne.symm (varReadName_ne_outReadName m.n_ref_ports m.n_in_ports)),
      dget_dset_self]
    rfl
  · intro h
    rw [probe_out_eq m t n h]
    show dget (dset (dset m.vars (varReadName m.n_ref_ports)
        (mkVar [t.shape.headD 0, n])) (outReadName m.n_in_ports)
        (mkVar [t.shape.headD 0, n])) (outReadName m.n_in_ports) = _
    rw [dget_dset_self]
    rfl

/-- Witness for `c7_buffer_shape`: probing a `(4,)`-shaped Var for 10
steps yields a zero-filled `(4, 10)` buffer. -/
theorem c7_buffer_shape_witness :
    (0 < 10 ∧ tgtVar4.kind ≠ .inPort ∧ tgtVar4.shape ≠ []) ∧
    ((tgtVar4.kind = .var →
      dget (probe initMonitor tgtVar4 10).1.vars
          (varReadName initMonitor.n_ref_ports) =
        some { shape := [tgtVar4.shape.headD 0, 10],
               val := zerosVal [tgtVar4.shape.headD 0, 10] }) ∧
     (tgtVar4.kind = .outPort →
      dget (probe initMonitor tgtVar4 10).1.vars
          (outReadName initMonitor.n_in_ports) =
        some { shape := [tgtVar4.shape.headD 0, 10],
               val := zerosVal [tgtVar4.shape.headD 0, 10] })) :=
  ⟨⟨by decide, by decide, by decide⟩,
    c7_buffer_shape initMonitor tgtVar4 10 (by decide) (by decide) (by decide)⟩

/-! ### C4 — naming of generated taps and buffers -/

/-- The own-kind names recorded for the probes of a sequence coincide with
the spec's naming scheme, started from the monitor's current counters. -/
theorem ownGenNames_eq_spec (ts : List (Target × Nat)) :
    ∀ m : Monitor, ownGenNames m ts =
      specOwnNames (ts.map fun p => p.1.kind) m.n_ref_ports m.n_in_ports := by
  induction ts with
  | nil => intro m; rfl
  | cons p rest ih =>
    obtain ⟨t, n⟩ := p
    intro m
    show ownNamesOf (probe m t n).1 t ++ ownGenNames (probe m t n).1 rest = _
    cases hk : t.kind
    · rw [probe_var_eq m t n hk, ih]
      simp [ownNamesOf, hk, specOwnNames]
    · rw [probe_out_eq m t n hk, ih]
      simp [ownNamesOf, hk, specOwnNames]
    · rw [probe_in_eq m t n hk, ih]
      simp [ownNamesOf, hk, specOwnNames]

/-- Any name occurring in `specOwnNames ks r i` is a VAR-kind name with
index at least `r` or a CHANNEL-kind name with index at least `i`. -/
theorem mem_specOwnNames (ks : List TKind) :
    ∀ r i nm, nm ∈ specOwnNames ks r i →
      (∃ c, r ≤ c ∧ (nm = refName c ∨ nm = varReadName c)) ∨
      (∃ c, i ≤ c ∧ (nm = inName c ∨ nm = outReadName c)) := by
  induction ks with
  | nil => intro r i nm h; simp [specOwnNames] at h
  | cons k rest ih =>
    intro r i nm h
    cases k
    · simp only [specOwnNames, List.mem_cons] at h
      rcases h with h | h | h
      · exact Or.inl ⟨r, le_refl r, Or.inl h⟩
      · exact Or.inl ⟨r, le_refl r, Or.inr h⟩
      · rcases ih (r + 1) i nm h with ⟨c, hc, ho⟩ | ⟨c, hc, ho⟩
        · exact Or.inl ⟨c, by omega, ho⟩
        · exact Or.inr ⟨c, hc, ho⟩
    · simp only [specOwnNames, List.mem_cons] at h
      rcases h with h | h | h
      · exact Or.inr ⟨i, le_refl i, Or.inl h⟩
      · exact Or.inr ⟨i, le_refl i, Or.inr h⟩
      · rcases ih r (i + 1) nm h with ⟨c, hc, ho⟩ | ⟨c, hc, ho⟩
        · exact Or.inl ⟨c, hc, ho⟩
        · exact Or.inr ⟨c, by omega, ho⟩
    · simp only [specOwnNames] at h
      rcases ih r i nm h with ⟨c, hc, ho⟩ | ⟨c, hc, ho⟩
      · exact Or.inl ⟨c, hc, ho⟩
      · exact Or.inr ⟨c, hc, ho⟩

/-- The spec naming scheme never repeats a name. -/
theorem specOwnNames_nodup (ks : List TKind) :
    ∀ r i, (specOwnNames ks r i).Nodup := by
  induction ks with
  | nil => intro r i; simp [specOwnNames]
  | cons k rest ih =>
    intro r i
    cases k
    · simp only [specOwnNames, List.nodup_cons, List.mem_cons]
      refine ⟨?_, ?_, ih (r + 1) i⟩
      · rintro (h | h)
        · exact refName_ne_varReadName r r h
        · rcases mem_specOwnNames rest (r + 1) i _ h with ⟨c, hc, ho | ho⟩ | ⟨c, _, ho | ho⟩
          · exact absurd (refName_injective r c ho) (by omega)
          · exact refName_ne_varReadName r c ho
          · exact inName_ne_refName c r ho.symm
          · exact refName_ne_outReadName r c ho
      · intro h
        rcases mem_specOwnNames rest (r + 1) i _ h with ⟨c, hc, ho | ho⟩ | ⟨c, _, ho | ho⟩
        · exact refName_ne_varReadName c r ho.symm
        · exact absurd (varReadName_injective r c ho) (by omega)
        · exact inName_ne_varReadName c r ho.symm
        · exact varReadName_ne_outReadName r c ho
    · simp only [specOwnNames, List.nodup_cons, List.mem_cons]
      refine ⟨?_, ?_, ih r (i + 1)⟩
      · rintro (h | h)
        · exact inName_ne_outReadName i i h
        · rcases mem_specOwnNames rest r (i + 1) _ h with ⟨c, _, ho | ho⟩ | ⟨c, hc, ho | ho⟩
          · exact inName_ne_refName i c ho
          · exact inName_ne_varReadName i c ho
          · exact absurd (inName_injective i c ho) (by omega)
          · exact inName_ne_outReadName i c ho
      · intro h
        rcases mem_specOwnNames rest r (i + 1) _ h with ⟨c, _, ho | ho⟩ | ⟨c, hc, ho | ho⟩
        · exact refName_ne_outReadName c i ho.symm
        · exact varReadName_ne_outReadName c i ho.symm
        · exact inName_ne_outReadName c i ho.symm
        · exact absurd (outReadName_injective i c ho) (by omega)
    · exact ih r i

/-- C4 counterexample: the claim is false for the names the code actually
generates.  Every `probe` call computes all four `new_*_name` strings
(source lines 145-152), so two consecutive Var probes both generate
`in_port_0` and `out_read_0`: the multiset of generated names over the
sequence is not pairwise distinct. -/
theorem c4_generated_names_collide :
    ¬ (allGenNames initMonitor [(tgtVarU, 5), (tgtVarV, 5)]).Nodup := by
  decide

/-- C4 (amended): restrict to the names each probe actually uses for its
own kind (the pair that is connected and recorded for that probe).  These
follow the spec's per-kind numbering from `0` upward in attachment order
— VAR-kind names numbered by the VAR counter independently of interleaved
CHANNEL probes and symmetrically — and are pairwise distinct across the
whole sequence. -/
theorem c4_own_names_unique (ts : List (Target × Nat)) :
    ownGenNames initMonitor ts =
      specOwnNames (ts.map fun p => p.1.kind) 0 0 ∧
    (ownGenNames initMonitor ts).Nodup := by
  constructor
  · exact ownGenNames_eq_spec ts initMonitor
  · rw [ownGenNames_eq_spec ts initMonitor]
    exact specOwnNames_nodup _ _ _

/-! ### Readout safety: invariants preserved by `probe` and engine writes -/

theorem dget_dset_all {κ α : Type} [DecidableEq κ] (P : α → Prop) (d : Dict κ α)
    (kk : κ) (w : α) (hd : ∀ k v, dget d k = some v → P v) (hw : P w) :
    ∀ k v, dget (dset d kk w) k = some v → P v := by
  intro k v h
  by_cases e : kk = k
  · subst e
    rw [dget_dset_self] at h
    cases h
    exact hw
  · rw [dget_dset_ne _ _ _ _ e] at h
    exact hd k v h

theorem dget_none_all_nil {κ α : Type} [DecidableEq κ] (d : Dict κ α)
    (h : ∀ k, dget d k = none) : d = [] := by
  cases d with
  | nil => rfl
  | cons hd tl =>
    obtain ⟨k, v⟩ := hd
    have := h k
    simp [dget] at this

/-- Inversion of one readout iteration. -/
theorem fetchOne_some (m : Monitor) (ls : List String) (i : Nat) (m₁ : Monitor)
    (h : fetchOne m ls i = some m₁) :
    ∃ nm pv p e inner, ls[i]? = some nm ∧ dget m.vars nm = some pv ∧
      dget m.target_names nm = some (p, e) ∧ dget m.data p = some inner ∧
      m₁ = { m with data := dset m.data p (dset inner e pv.val) } := by
  unfold fetchOne at h
  split at h
  · cases h
  next nm hnm =>
    split at h
    · cases h
    next pv hpv =>
      split at h
      · cases h
      next p e htn =>
        split at h
        · cases h
        next inner hin =>
          cases h
          exact ⟨nm, pv, p, e, inner, hnm, hpv, htn, hin, rfl⟩

/-- A readout loop succeeds whenever each index is fetchable, and it
changes nothing but (values inside) the result store. -/
theorem loopFetch_total (ls : List String) :
    ∀ (idxs : List Nat) (m : Monitor),
    (∀ i ∈ idxs, ∃ nm, ls[i]? = some nm ∧ (dget m.vars nm).isSome = true ∧
      ∃ p e, dget m.target_names nm = some (p, e) ∧
        (dget m.data p).isSome = true) →
    ∃ m', loopFetch m ls idxs = some m' ∧
      m'.vars = m.vars ∧ m'.target_names = m.target_names ∧
      m'.varsData1 = m.varsData1 ∧ m'.varsData2 = m.varsData2 ∧
      m'.n_ref_ports = m.n_ref_ports ∧ m'.n_in_ports = m.n_in_ports ∧
      (∀ p, (dget m'.data p).isSome = (dget m.data p).isSome) := by
  intro idxs
  induction idxs with
  | nil =>
    intro m _
    exact ⟨m, rfl, rfl, rfl, rfl, rfl, rfl, rfl, fun p => rfl⟩
  | cons i is ih =>
    intro m hcond
    obtain ⟨nm, hnm, hv, p, e, htn, hdp⟩ := hcond i (List.mem_cons_self i is)
    obtain ⟨pv, hpv⟩ := Option.isSome_iff_exists.mp hv
    obtain ⟨inner, hin⟩ := Option.isSome_iff_exists.mp hdp
    have hfetch : fetchOne m ls i =
        some { m with data := dset m.data p (dset inner e pv.val) } := by
      simp only [fetchOne, hnm, hpv, htn, hin]
    have hdata : ∀ q, (dget (dset m.data p (dset inner e pv.val)) q).isSome =
        (dget m.data q).isSome := by
      intro q
      exact isSome_dget_dset_eq m.data p q _ hdp
    obtain ⟨m', hloop, hv', htn', h1', h2', h3', h4', hd'⟩ :=
      ih { m with data := dset m.data p (dset inner e pv.val) }
        (by
          intro j hj
          obtain ⟨nm', hnm', hv', q, e', htn', hdq⟩ := hcond j (List.mem_cons_of_mem i hj)
          exact ⟨nm', hnm', hv', q, e', htn', by rw [hdata q]; exact hdq⟩)
    refine ⟨m', ?_, hv', htn', h1', h2', h3', h4', ?_⟩
    · show loopFetch m ls (i :: is) = some m'
      unfold loopFetch
      rw [hfetch]
      exact hloop
    · intro q
      rw [hd' q, hdata q]

/-- A readout loop only writes unwritten content into the result store
when every buffer still holds its zero initialization. -/
theorem loopFetch_valOk (ls : List String) :
    ∀ (idxs : List Nat) (m m' : Monitor), loopFetch m ls idxs = some m' →
    (∀ nm pv, dget m.vars nm = some pv → pv.val = zerosVal pv.shape) →
    (∀ p inner, dget m.data p = some inner →
      ∀ e v, dget inner e = some v → ValOk v) →
    (∀ p inner, dget m'.data p = some inner →
      ∀ e v, dget inner e = some v → ValOk v) := by
  intro idxs
  induction idxs with
  | nil =>
    intro m m' h hz hd
    cases h
    exact hd
  | cons i is ih =>
    intro m m' h hz hd
    unfold loopFetch at h
    split at h
    · cases h
    next m₁ hfetch =>
      obtain ⟨nm, pv, p, e, inner, _, hpv, _, hin, hm₁⟩ :=
        fetchOne_some m ls i m₁ hfetch
      subst hm₁
      refine ih _ m' h hz ?_
      refine dget_dset_all _ m.data p _ hd ?_
      refine dget_dset_all ValOk inner e pv.val (hd p inner hin) ?_
      exact Or.inr ⟨pv.shape, hz nm pv hpv⟩

/-- Projections of a successful Var-target `probe` needed for the
invariant. -/
theorem probe_fields_var (m : Monitor) (t : Target) (n : Nat) (hk : t.kind = .var) :
    (probe m t n).1.n_ref_ports = m.n_ref_ports + 1 ∧
    (probe m t n).1.n_in_ports = m.n_in_ports ∧
    (probe m t n).1.varsData1 = m.varsData1 ++ [varReadName m.n_ref_ports] ∧
    (probe m t n).1.varsData2 = m.varsData2 ++ [outReadName m.n_in_ports] := by
  rw [probe_var_eq m t n hk]
  exact ⟨rfl, rfl, rfl, rfl⟩

/-- Projections of a successful OutPort-target `probe` needed for the
invariant. -/
theorem probe_fields_out (m : Monitor) (t : Target) (n : Nat) (hk : t.kind = .outPort) :
    (probe m t n).1.n_ref_ports = m.n_ref_ports ∧
    (probe m t n).1.n_in_ports = m.n_in_ports + 1 ∧
    (probe m t n).1.varsData1 = m.varsData1 ++ [varReadName m.n_ref_ports] ∧
    (probe m t n).1.varsData2 = m.varsData2 ++ [outReadName m.n_in_ports] := by
  rw [probe_out_eq m t n hk]
  exact ⟨rfl, rfl, rfl, rfl⟩

/-- A successful `probe` keeps every previously readable buffer readable. -/
theorem goodAt_probe (m : Monitor) (t : Target) (n : Nat) (nm : String)
    (hk : t.kind ≠ .inPort) (h : goodAt m nm) : goodAt (probe m t n).1 nm := by
  obtain ⟨h1, p, e, h2, h3⟩ := h
  cases hkk : t.kind
  case inPort => exact absurd hkk hk
  case var =>
    rw [probe_var_eq m t n hkk]
    refine ⟨isSome_dget_dset _ _ _ _ (isSome_dget_dset _ _ _ _ h1), ?_⟩
    by_cases he : varReadName m.n_ref_ports = nm
    · refine ⟨t.procName, t.name, ?_, ?_⟩
      · show dget (dset m.target_names (varReadName m.n_ref_ports)
          (t.procName, t.name)) nm = _
        rw [← he, dget_dset_self]
      · show (dget (dset m.data t.procName (dset [] t.name (.int 0)))
          t.procName).isSome = true
        rw [dget_dset_self]
        rfl
    · refine ⟨p, e, ?_, isSome_dget_dset _ _ _ _ h3⟩
      show dget (dset m.target_names (varReadName m.n_ref_ports)
        (t.procName, t.name)) nm = some (p, e)
      rw [dget_dset_ne _ _ _ _ he]
      exact h2
  case outPort =>
    rw [probe_out_eq m t n hkk]
    refine ⟨isSome_dget_dset _ _ _ _ (isSome_dget_dset _ _ _ _ h1), ?_⟩
    by_cases he : outReadName m.n_in_ports = nm
    · refine ⟨t.procName, t.name, ?_, ?_⟩
      · show dget (dset m.target_names (outReadName m.n_in_ports)
          (t.procName, t.name)) nm = _
        rw [← he, dget_dset_self]
      · show (dget (dset m.data t.procName (dset [] t.name (.int 0)))
          t.procName).isSome = true
        rw [dget_dset_self]
        rfl
    · refine ⟨p, e, ?_, isSome_dget_dset _ _ _ _ h3⟩
      show dget (dset m.target_names (outReadName m.n_in_ports)
        (t.procName, t.name)) nm = some (p, e)
      rw [dget_dset_ne _ _ _ _ he]
      exact h2

/-- The buffer registered by a Var probe is immediately readable. -/
theorem goodAt_probe_new_var (m : Monitor) (t : Target) (n : Nat)
    (hk : t.kind = .var) : goodAt (probe m t n).1 (varReadName m.n_ref_ports) := by
  rw [probe_var_eq m t n hk]
  refine ⟨?_, t.procName, t.name, dget_dset_self _ _ _, ?_⟩
  · show (dget (dset (dset m.vars (varReadName m.n_ref_ports)
      (mkVar [t.shape.headD 0, n])) (outReadName m.n_in_ports)
      (mkVar [t.shape.headD 0, n])) (varReadName m.n_ref_ports)).isSome = true
    rw [dget_dset_ne _ _ _ _
      (Ne.symm (varReadName_ne_outReadName m.n_ref_ports m.n_in_ports)),
      dget_dset_self]
    rfl
  · show (dget (dset m.data t.procName (dset [] t.name (.int 0)))
      t.procName).isSome = true
    rw [dget_dset_self]
    rfl

/-- The buffer registered by an OutPort probe is immediately readable. -/
theorem goodAt_probe_new_out (m : Monitor) (t : Target) (n : Nat)
    (hk : t.kind = .outPort) : goodAt (probe m t n).1 (outReadName m.n_in_ports) := by
  rw [probe_out_eq m t n hk]
  refine ⟨?_, t.procName, t.name, dget_dset_self _ _ _, ?_⟩
  · show (dget (dset (dset m.vars (varReadName m.n_ref_ports)
      (mkVar [t.shape.headD 0, n])) (outReadName m.n_in_ports)
      (mkVar [t.shape.headD 0, n])) (outReadName m.n_in_ports)).isSome = true
    rw [dget_dset_self]
    rfl
  · show (dget (dset m.data t.procName (dset [] t.name (.int 0)))
      t.procName).isSome = true
    rw [dget_dset_self]
    rfl

/-- Engine writes keep every readable buffer readable. -/
theorem goodAt_write (m : Monitor) (k : String) (v : Value) (nm : String)
    (h : goodAt m nm) : goodAt (writeVar m k v) nm := by
  obtain ⟨h1, p, e, h2, h3⟩ := h
  unfold writeVar
  split
  · exact ⟨isSome_dget_dset _ _ _ _ h1, p, e, h2, h3⟩
  · exact ⟨h1, p, e, h2, h3⟩

/-- `writeVar` changes nothing but the `vars` map. -/
theorem writeVar_fields (m : Monitor) (k : String) (v : Value) :
    (writeVar m k v).n_ref_ports = m.n_ref_ports ∧
    (writeVar m k v).n_in_ports = m.n_in_ports ∧
    (writeVar m k v).varsData1 = m.varsData1 ∧
    (writeVar m k v).varsData2 = m.varsData2 ∧
    (writeVar m k v).data = m.data := by
  unfold writeVar
  split
  · exact ⟨rfl, rfl, rfl, rfl, rfl⟩
  · exact ⟨rfl, rfl, rfl, rfl, rfl⟩

theorem monInv_init : MonInv initMonitor := by
  refine ⟨Nat.le_refl 0, Nat.le_refl 0, ?_, ?_, ?_, ?_, fun _ => rfl⟩
  · intro i nm h
    rw [show initMonitor.varsData2 = [] from rfl] at h
    simp at h
  · intro i nm h
    rw [show initMonitor.varsData1 = [] from rfl] at h
    simp at h
  · intro c hc
    rw [show initMonitor.n_in_ports = 0 from rfl] at hc
    exact absurd hc (Nat.not_lt_zero c)
  · intro c hc
    rw [show initMonitor.n_ref_ports = 0 from rfl] at hc
    exact absurd hc (Nat.not_lt_zero c)

theorem monInv_probe (m : Monitor) (t : Target) (n : Nat)
    (hs : (probe m t n).2 = true) (h : MonInv m) : MonInv (probe m t n).1 := by
  obtain ⟨hi1, hr1, hls2, hls1, hg2, hg1, _⟩ := h
  have hk := (probe_succeeds_iff m t n).mp hs
  cases hkk : t.kind
  case inPort => exact absurd hkk hk
  case var =>
    obtain ⟨e1, e2, e3, e4⟩ := probe_fields_var m t n hkk
    refine ⟨?_, ?_, ?_, ?_, ?_, ?_, ?_⟩
    · rw [e2, e4]
      simp
      omega
    · rw [e1, e3]
      simp
      omega
    · rw [e2, e4]
      intro i nm hnm
      rcases Nat.lt_or_ge i m.varsData2.length with hlt | hge
      · rw [List.getElem?_append_left hlt] at hnm
        exact hls2 i nm hnm
      · rw [List.getElem?_append_right hge] at hnm
        rcases Nat.eq_or_lt_of_le hge with heq | hlt2
        · rw [← heq, Nat.sub_self] at hnm
          simp at hnm
          exact ⟨m.n_in_ports, hnm.symm, by omega, Nat.le_refl _⟩
        · rw [List.getElem?_eq_none (by simp; omega)] at hnm
          cases hnm
    · rw [e1, e3]
      intro i nm hnm
      rcases Nat.lt_or_ge i m.varsData1.length with hlt | hge
      · rw [List.getElem?_append_left hlt] at hnm
        obtain ⟨c, hc1, hc2, hc3⟩ := hls1 i nm hnm
        exact ⟨c, hc1, hc2, by omega⟩
      · rw [List.getElem?_append_right hge] at hnm
        rcases Nat.eq_or_lt_of_le hge with heq | hlt2
        · rw [← heq, Nat.sub_self] at hnm
          simp at hnm
          exact ⟨m.n_ref_ports, hnm.symm, by omega, by omega⟩
        · rw [List.getElem?_eq_none (by simp; omega)] at hnm
          cases hnm
    · rw [e2]
      intro c hc
      exact goodAt_probe m t n _ hk (hg2 c hc)
    · rw [e1]
      intro c hc
      rcases Nat.lt_or_ge c m.n_ref_ports with hlt | hge
      · exact goodAt_probe m t n _ hk (hg1 c hlt)
      · have : c = m.n_ref_ports := by omega
        rw [this]
        exact goodAt_probe_new_var m t n hkk
    · rw [e1]
      intro hcc
      omega
  case outPort =>
    obtain ⟨e1, e2, e3, e4⟩ := probe_fields_out m t n hkk
    refine ⟨?_, ?_, ?_, ?_, ?_, ?_, ?_⟩
    · rw [e2, e4]
      simp
      omega
    · rw [e1, e3]
      simp
      omega
    · rw [e2, e4]
      intro i nm hnm
      rcases Nat.lt_or_ge i m.varsData2.length with hlt | hge
      · rw [List.getElem?_append_left hlt] at hnm
        obtain ⟨c, hc1, hc2, hc3⟩ := hls2 i nm hnm
        exact ⟨c, hc1, hc2, by omega⟩
      · rw [List.getElem?_append_right hge] at hnm
        rcases Nat.eq_or_lt_of_le hge with heq | hlt2
        · rw [← heq, Nat.sub_self] at hnm
          simp at hnm
          exact ⟨m.n_in_ports, hnm.symm, by omega, by omega⟩
        · rw [List.getElem?_eq_none (by simp; omega)] at hnm
          cases hnm
    · rw [e1, e3]
      intro i nm hnm
      rcases Nat.lt_or_ge i m.varsData1.length with hlt | hge
      · rw [List.getElem?_append_left hlt] at hnm
        exact hls1 i nm hnm
      · rw [List.getElem?_append_right hge] at hnm
        rcases Nat.eq_or_lt_of_le hge with heq | hlt2
        · rw [← heq, Nat.sub_self] at hnm
          simp at hnm
          exact ⟨m.n_ref_ports, hnm.symm, by omega, Nat.le_refl _⟩
        · rw [List.getElem?_eq_none (by simp; omega)] at hnm
          cases hnm
    · rw [e2]
      intro c hc
      rcases Nat.lt_or_ge c m.n_in_ports with hlt | hge
      · exact goodAt_probe m t n _ hk (hg2 c hlt)
      · have : c = m.n_in_ports := by omega
        rw [this]
        exact goodAt_probe_new_out m t n hkk
    · rw [e1]
      intro c hc
      exact goodAt_probe m t n _ hk (hg1 c hc)
    · rw [e2]
      intro hcc
      omega

theorem monInv_write (m : Monitor) (k : String) (v : Value)
    (h : MonInv m) : MonInv (writeVar m k v) := by
  obtain ⟨hi1, hr1, hls2, hls1, hg2, hg1, hemp⟩ := h
  obtain ⟨e1, e2, e3, e4, e5⟩ := writeVar_fields m k v
  refine ⟨?_, ?_, ?_, ?_, ?_, ?_, ?_⟩
  · rw [e2, e4]
    exact hi1
  · rw [e1, e3]
    exact hr1
  · rw [e2, e4]
    exact hls2
  · rw [e1, e3]
    exact hls1
  · rw [e2]
    intro c hc
    exact goodAt_write m k v _ (hg2 c hc)
  · rw [e1]
    intro c hc
    exact goodAt_write m k v _ (hg1 c hc)
  · rw [e1, e2, e5]
    exact hemp

theorem reachable_monInv (m : Monitor) (h : Reachable m) : MonInv m := by
  induction h with
  | init => exact monInv_init
  | probeStep _ hs ih => exact monInv_probe _ _ _ hs ih
  | writeStep _ ih => exact monInv_write _ _ _ ih

theorem reachableP_reachable (m : Monitor) (h : ReachableP m) : Reachable m := by
  induction h with
  | init => exact Reachable.init
  | step _ hs ih => exact Reachable.probeStep ih hs

theorem zinv_init : ZInv initMonitor := by
  constructor
  · intro nm pv h
    rw [show initMonitor.vars =
      dset (dset [] (varReadName 0) (mkVar [1])) (outReadName 0) (mkVar [1]) from rfl] at h
    revert h
    refine dget_dset_all (fun pv : PVar => pv.val = zerosVal pv.shape) _ _ _
      (dget_dset_all (fun pv : PVar => pv.val = zerosVal pv.shape) _ _ _ ?_ rfl) rfl nm pv
    intro k v h
    simp [dget] at h
  · intro p inner h
    rw [show initMonitor.data = [] from rfl] at h
    simp [dget] at h

theorem zinv_probe (m : Monitor) (t : Target) (n : Nat) (h : ZInv m) :
    ZInv (probe m t n).1 := by
  obtain ⟨hz, hd⟩ := h
  cases hkk : t.kind
  case var =>
    rw [probe_var_eq m t n hkk]
    constructor
    · exact dget_dset_all (fun pv : PVar => pv.val = zerosVal pv.shape) _ _ _
        (dget_dset_all (fun pv : PVar => pv.val = zerosVal pv.shape) _ _ _ hz rfl) rfl
    · refine dget_dset_all _ _ _ _ hd ?_
      refine dget_dset_all (fun v => v = Value.int 0) _ _ _ ?_ rfl
      intro e v hv
      simp [dget] at hv
  case outPort =>
    rw [probe_out_eq m t n hkk]
    constructor
    · exact dget_dset_all (fun pv : PVar => pv.val = zerosVal pv.shape) _ _ _
        (dget_dset_all (fun pv : PVar => pv.val = zerosVal pv.shape) _ _ _ hz rfl) rfl
    · refine dget_dset_all _ _ _ _ hd ?_
      refine dget_dset_all (fun v => v = Value.int 0) _ _ _ ?_ rfl
      intro e v hv
      simp [dget] at hv
  case inPort =>
    rw [probe_in_eq m t n hkk]
    constructor
    · exact dget_dset_all (fun pv : PVar => pv.val = zerosVal pv.shape) _ _ _
        (dget_dset_all (fun pv : PVar => pv.val = zerosVal pv.shape) _ _ _ hz rfl) rfl
    · exact hd

theorem reachableP_zinv (m : Monitor) (h : ReachableP m) : ZInv m := by
  induction h with
  | init => exact zinv_init
  | step _ _ ih => exact zinv_probe _ _ _ ih

/-- On any state satisfying the invariant, `get_data` succeeds, returns
the (drained) result store, leaves the buffers alone, changes no outer
key of the store, and — when the buffers are still zero-initialized and
the store holds only placeholders — produces only unwritten content. -/
theorem get_data_total (m : Monitor) (hInv : MonInv m) :
    ∃ m', get_data m = some (m', m'.data) ∧
      m'.vars = m.vars ∧
      (∀ p, (dget m'.data p).isSome = (dget m.data p).isSome) ∧
      ((∀ nm pv, dget m.vars nm = some pv → pv.val = zerosVal pv.shape) →
       (∀ p inner, dget m.data p = some inner →
         ∀ e v, dget inner e = some v → v = .int 0) →
       (∀ p inner, dget m'.data p = some inner →
         ∀ e v, dget inner e = some v → ValOk v)) := by
  obtain ⟨hi1, hr1, hls2, hls1, hg2, hg1, _⟩ := hInv
  have hcond1 : ∀ i ∈ List.range m.n_in_ports, ∃ nm,
      m.varsData2[i]? = some nm ∧ (dget m.vars nm).isSome = true ∧
      ∃ p e, dget m.target_names nm = some (p, e) ∧
        (dget m.data p).isSome = true := by
    intro i hi
    have hilt : i < m.n_in_ports := List.mem_range.mp hi
    have hlen : i < m.varsData2.length := by omega
    have hsome : m.varsData2[i]? = some m.varsData2[i] :=
      List.getElem?_eq_getElem hlen
    obtain ⟨c, hc1, hc2, _⟩ := hls2 i _ hsome
    obtain ⟨hv, p, e, htt, hdd⟩ := hg2 c (by omega)
    refine ⟨m.varsData2[i], hsome, ?_, p, e, ?_, hdd⟩
    · rw [hc1]
      exact hv
    · rw [hc1]
      exact htt
  obtain ⟨m1, hl1, hv1, htn1, hd11, hd12, hn1, hn2, hp1⟩ :=
    loopFetch_total m.varsData2 (List.range m.n_in_ports) m hcond1
  have hcond2 : ∀ i ∈ List.range m1.n_ref_ports, ∃ nm,
      m1.varsData1[i]? = some nm ∧ (dget m1.vars nm).isSome = true ∧
      ∃ p e, dget m1.target_names nm = some (p, e) ∧
        (dget m1.data p).isSome = true := by
    intro i hi
    rw [hn1] at hi
    rw [hd11, hv1, htn1]
    have hilt : i < m.n_ref_ports := List.mem_range.mp hi
    have hlen : i < m.varsData1.length := by omega
    have hsome : m.varsData1[i]? = some m.varsData1[i] :=
      List.getElem?_eq_getElem hlen
    obtain ⟨c, hc1, hc2, _⟩ := hls1 i _ hsome
    obtain ⟨hv, p, e, htt, hdd⟩ := hg1 c (by omega)
    refine ⟨m.varsData1[i], hsome, ?_, p, e, ?_, ?_⟩
    · rw [hc1]
      exact hv
    · rw [hc1]
      exact htt
    · rw [hp1 p]
      exact hdd
  obtain ⟨m2, hl2, hv2, htn2, _, _, _, _, hp2⟩ :=
    loopFetch_total m1.varsData1 (List.range m1.n_ref_ports) m1 hcond2
  refine ⟨m2, ?_, by rw [hv2, hv1], fun p => by rw [hp2 p, hp1 p], ?_⟩
  · simp only [get_data, hl1, hl2]
  · intro hz hd
    have hd1 := loopFetch_valOk m.varsData2 (List.range m.n_in_ports) m m1 hl1 hz
      (by
        intro p inner hp e v hv
        exact Or.inl (hd p inner hp e v hv))
    refine loopFetch_valOk m1.varsData1 (List.range m1.n_ref_ports) m1 m2 hl2 ?_ hd1
    rw [hv1]
    exact hz

/-! ### C8 — `get_data` never raises -/

/-- C8 (amended): on every state reachable by successful `probe` calls
with no execution steps, `get_data()` does not raise: it returns the
result store, every value it contains is the scalar placeholder `0` or a
zero-filled array, and with zero probes attached the returned mapping is
empty.  (The claim's further part — that *every* probed entity appears —
is false; see the counterexample.) -/
theorem c8_get_data_never_raises (m : Monitor) (h : ReachableP m) :
    ∃ m', get_data m = some (m', m'.data) ∧
      (∀ p inner, dget m'.data p = some inner →
        ∀ e v, dget inner e = some v → ValOk v) ∧
      (m.n_in_ports = 0 ∧ m.n_ref_ports = 0 → m'.data = []) := by
  have hInv := reachable_monInv m (reachableP_reachable m h)
  have hemp := hInv.2.2.2.2.2.2
  have hZ := reachableP_zinv m h
  obtain ⟨m', hgd, _, hp, hok⟩ := get_data_total m hInv
  refine ⟨m', hgd, hok hZ.1 hZ.2, ?_⟩
  intro hc
  have hnil : m.data = [] := hemp hc
  apply dget_none_all_nil
  intro k
  have hk := hp k
  rw [hnil] at hk
  cases hcase : dget m'.data k
  · rfl
  · rw [hcase] at hk
    simp [dget] at hk

/-- Witness for `c8_get_data_never_raises` at the freshly initialized
Monitor: zero probes, `get_data` returns the empty mapping. -/
theorem c8_get_data_never_raises_witness :
    ∃ m', get_data initMonitor = some (m', m'.data) ∧
      (∀ p inner, dget m'.data p = some inner →
        ∀ e v, dget inner e = some v → ValOk v) ∧
      (initMonitor.n_in_ports = 0 ∧ initMonitor.n_ref_ports = 0 →
        m'.data = []) :=
  c8_get_data_never_raises initMonitor ReachableP.init

/-- C8 counterexample: a probed entity can be *absent* from the readout,
not merely zero.  After the successful sequence OutPort `procQ.q`, Var
`procP.u`, Var `procP.v`, OutPort `procP.x`, the readout succeeds but
`data["procP"]` has no key `"v"` at all: `v`'s placeholder was erased by
the later probe of `procP.x`, and the interleaving makes `get_data` read
`var_read_0` twice and never `var_read_1`, so it is not restored. -/
theorem c8_probed_entity_missing :
    (probe (runProbes initMonitor [(tgtOutQ, 1), (tgtVarU, 1)]) tgtVarV 1).2 = true ∧
    (get_data (runProbes initMonitor
        [(tgtOutQ, 1), (tgtVarU, 1), (tgtVarV, 1), (tgtOutX, 1)])).map
      (fun r => dget2 r.2 "procP" "v") = some none :=
  ⟨rfl, rfl⟩

/-! ### C3 — readout completeness -/

/-- C3: the claim that `get_data` drains *every* registered buffer fails.
After the successful sequence OutPort `procQ.q`, Var `procP.u`, Var
`procP.v`, the readout index maps `var_read_1` to `("procP", "v")`; the
engine writes the sample `7` into that buffer; yet `get_data()` leaves
`data["procP"]["v"]` at the placeholder `0`.  The readout loop indexes
`VarsData1` by counter positions `0..n_ref_ports-1`, but `VarsData1`
received one append per probe call of *any* kind, so it reads
`VarsData1[0] = VarsData1[1] = "var_read_0"` twice and never reads
`"var_read_1"`. -/
theorem c3_buffer_not_drained :
    dget (runProbes initMonitor
        [(tgtOutQ, 1), (tgtVarU, 1), (tgtVarV, 1)]).target_names "var_read_1" =
      some ("procP", "v") ∧
    dget (writeVar (runProbes initMonitor
        [(tgtOutQ, 1), (tgtVarU, 1), (tgtVarV, 1)]) "var_read_1"
        (.arr [1, 1] [7])).vars "var_read_1" =
      some { shape := [1, 1], val := .arr [1, 1] [7] } ∧
    (get_data (writeVar (runProbes initMonitor
        [(tgtOutQ, 1), (tgtVarU, 1), (tgtVarV, 1)]) "var_read_1"
        (.arr [1, 1] [7]))).map (fun r => dget2 r.2 "procP" "v") =
      some (some (.int 0)) :=
  ⟨rfl, rfl, rfl⟩

/-! ### C9 — idempotence of `get_data` -/

theorem applyW_none (d : DataDict) (w : String × String × Value)
    (h : dget d w.1 = none) : applyW d w = d := by
  simp only [applyW, h]

theorem applyW_some (d : DataDict) (w : String × String × Value)
    (inner : Dict String Value) (h : dget d w.1 = some inner) :
    applyW d w = dset d w.1 (dset inner w.2.1 w.2.2) := by
  simp only [applyW, h]

theorem isSome_dget_applyW (d : DataDict) (w : String × String × Value)
    (p : String) : (dget (applyW d w) p).isSome = (dget d p).isSome := by
  cases h : dget d w.1
  · rw [applyW_none d w h]
  · rw [applyW_some d w _ h]
    exact isSome_dget_dset_eq d w.1 p _ (by rw [h]; rfl)

theorem applyWs_nil (d : DataDict) : applyWs d [] = d := rfl

theorem applyWs_cons (d : DataDict) (w : String × String × Value)
    (ws : List (String × String × Value)) :
    applyWs d (w :: ws) = applyWs (applyW d w) ws := rfl

theorem isSome_dget_applyWs (ws : List (String × String × Value)) :
    ∀ (d : DataDict) (p : String),
    (dget (applyWs d ws) p).isSome = (dget d p).isSome := by
  induction ws with
  | nil => intro d p; rfl
  | cons w rest ih =>
    intro d p
    rw [applyWs_cons, ih, isSome_dget_applyW]

theorem dget2_applyW_self (d : DataDict) (w : String × String × Value)
    (hp : (dget d w.1).isSome = true) :
    dget2 (applyW d w) w.1 w.2.1 = some w.2.2 := by
  obtain ⟨inner, hin⟩ := Option.isSome_iff_exists.mp hp
  rw [applyW_some d w inner hin]
  simp only [dget2, dget_dset_self]

theorem dget2_applyW_other (d : DataDict) (w : String × String × Value)
    (p e : String) (h : ¬ (w.1 = p ∧ w.2.1 = e)) :
    dget2 (applyW d w) p e = dget2 d p e := by
  cases hin : dget d w.1
  · rw [applyW_none d w hin]
  · rw [applyW_some d w _ hin]
    by_cases hp : w.1 = p
    · subst hp
      have he : ¬ w.2.1 = e := fun hee => h ⟨rfl, hee⟩
      simp only [dget2, dget_dset_self, hin, dget_dset_ne _ _ _ _ he]
    · simp only [dget2, dget_dset_ne _ _ _ _ hp]

theorem dget2_applyWs_other (ws : List (String × String × Value)) :
    ∀ (d : DataDict) (p e : String),
    (∀ w ∈ ws, ¬ (w.1 = p ∧ w.2.1 = e)) →
    dget2 (applyWs d ws) p e = dget2 d p e := by
  induction ws with
  | nil => intro d p e _; rfl
  | cons w rest ih =>
    intro d p e h
    rw [applyWs_cons, ih _ p e (fun w' hw' => h w' (List.mem_cons_of_mem w hw')),
      dget2_applyW_other d w p e (h w (List.mem_cons_self w rest))]

theorem applyW_noop (d : DataDict) (w : String × String × Value)
    (h : dget2 d w.1 w.2.1 = some w.2.2) : applyW d w = d := by
  unfold dget2 at h
  cases hin : dget d w.1
  · exact applyW_none d w hin
  next inner =>
    rw [hin] at h
    rw [applyW_some d w inner hin, dset_eq_self inner w.2.1 w.2.2 h,
      dset_eq_self d w.1 inner hin]

theorem entry_applyW (d : DataDict) (w : String × String × Value) (p e : String)
    (h : ∃ inner, dget d p = some inner ∧ (dget inner e).isSome = true) :
    ∃ inner, dget (applyW d w) p = some inner ∧ (dget inner e).isSome = true := by
  obtain ⟨inner, hin, hie⟩ := h
  cases hw : dget d w.1
  · rw [applyW_none d w hw]
    exact ⟨inner, hin, hie⟩
  next innW =>
    rw [applyW_some d w innW hw]
    by_cases hp : w.1 = p
    · subst hp
      rw [hw] at hin
      cases hin
      refine ⟨dset inner w.2.1 w.2.2, dget_dset_self _ _ _, ?_⟩
      by_cases he : w.2.1 = e
      · subst he
        rw [dget_dset_self]
        rfl
      · rw [dget_dset_ne _ _ _ _ he]
        exact hie
    · rw [dget_dset_ne _ _ _ _ hp]
      exact ⟨inner, hin, hie⟩

theorem entry_applyWs (ws : List (String × String × Value)) :
    ∀ (d : DataDict) (p e : String),
    (∃ inner, dget d p = some inner ∧ (dget inner e).isSome = true) →
    ∃ inner, dget (applyWs d ws) p = some inner ∧ (dget inner e).isSome = true := by
  induction ws with
  | nil => intro d p e h; exact h
  | cons w rest ih =>
    intro d p e h
    rw [applyWs_cons]
    exact ih _ p e (entry_applyW d w p e h)

theorem entry_after_applyW_self (d : DataDict) (w : String × String × Value)
    (hp : (dget d w.1).isSome = true) :
    ∃ inner, dget (applyW d w) w.1 = some inner ∧
      (dget inner w.2.1).isSome = true := by
  obtain ⟨inner, hin⟩ := Option.isSome_iff_exists.mp hp
  rw [applyW_some d w inner hin]
  refine ⟨dset inner w.2.1 w.2.2, dget_dset_self _ _ _, ?_⟩
  rw [dget_dset_self]
  rfl

theorem applyW_absorb (d : DataDict) (w w' : String × String × Value)
    (hk : w.1 = w'.1) (he : w.2.1 = w'.2.1) :
    applyW (applyW d w') w = applyW d w := by
  cases h' : dget d w'.1
  · rw [applyW_none d w' h', applyW_none d w (by rw [hk]; exact h')]
  next inner =>
    rw [applyW_some d w' inner h']
    have h2 : dget (dset d w'.1 (dset inner w'.2.1 w'.2.2)) w.1 =
        some (dset inner w'.2.1 w'.2.2) := by
      rw [hk]
      exact dget_dset_self _ _ _
    rw [applyW_some _ w _ h2, applyW_some d w inner (by rw [hk]; exact h'), hk, he,
      dset_dset_self, dset_dset_self]

theorem applyW_comm (d : DataDict) (w w' : String × String × Value)
    (hne : ¬ (w.1 = w'.1 ∧ w.2.1 = w'.2.1))
    (hent : ∃ inner, dget d w.1 = some inner ∧
      (dget inner w.2.1).isSome = true) :
    applyW (applyW d w) w' = applyW (applyW d w') w := by
  obtain ⟨inner, hin, hie⟩ := hent
  by_cases hp : w.1 = w'.1
  · have hee : ¬ w.2.1 = w'.2.1 := fun h => hne ⟨hp, h⟩
    rw [applyW_some d w inner hin, applyW_some d w' inner (by rw [← hp]; exact hin)]
    have h1 : dget (dset d w.1 (dset inner w.2.1 w.2.2)) w'.1 =
        some (dset inner w.2.1 w.2.2) := by
      rw [← hp]
      exact dget_dset_self _ _ _
    have h2 : dget (dset d w'.1 (dset inner w'.2.1 w'.2.2)) w.1 =
        some (dset inner w'.2.1 w'.2.2) := by
      rw [hp]
      exact dget_dset_self _ _ _
    rw [applyW_some _ w' _ h1, applyW_some _ w _ h2, ← hp,
      dset_dset_self, dset_dset_self]
    congr 1
    exact dset_comm_of_isSome inner w.2.1 w'.2.1 w.2.2 w'.2.2 hee hie
  · cases h' : dget d w'.1
    · rw [applyW_none d w' h', applyW_some d w inner hin,
        applyW_none _ w' (by rw [dget_dset_ne _ _ _ _ hp]; exact h')]
    next innW =>
      rw [applyW_some d w inner hin, applyW_some d w' innW h']
      have h1 : dget (dset d w.1 (dset inner w.2.1 w.2.2)) w'.1 = some innW := by
        rw [dget_dset_ne _ _ _ _ hp]
        exact h'
      have h2 : dget (dset d w'.1 (dset innW w'.2.1 w'.2.2)) w.1 = some inner := by
        rw [dget_dset_ne _ _ _ _ (fun h => hp h.symm)]
        exact hin
      rw [applyW_some _ w' _ h1, applyW_some _ w _ h2]
      exact dset_comm_of_isSome d w.1 w'.1 _ _ hp (by rw [hin]; rfl)

theorem applyWs_absorb (w : String × String × Value) :
    ∀ (ws : List (String × String × Value)) (X : DataDict),
    (∃ inner, dget X w.1 = some inner ∧ (dget inner w.2.1).isSome = true) →
    (∃ w' ∈ ws, w'.1 = w.1 ∧ w'.2.1 = w.2.1) →
    applyWs (applyW X w) ws = applyWs X ws := by
  intro ws
  induction ws with
  | nil =>
    intro X _ hmem
    obtain ⟨w', hw', _⟩ := hmem
    simp at hw'
  | cons wh rest ih =>
    intro X hent hmem
    by_cases hk : wh.1 = w.1 ∧ wh.2.1 = w.2.1
    · rw [applyWs_cons, applyWs_cons, applyW_absorb X wh w hk.1 hk.2]
    · rw [applyWs_cons, applyWs_cons,
        applyW_comm X w wh (fun hc => hk ⟨hc.1.symm, hc.2.symm⟩) hent]
      obtain ⟨w', hw', hkey⟩ := hmem
      rcases List.mem_cons.mp hw' with heq | hmem'
      · subst heq
        exact absurd hkey hk
      · exact ih (applyW X wh) (entry_applyW X wh w.1 w.2.1 hent) ⟨w', hmem', hkey⟩

/-- Re-applying a write list whose owners were all present changes
nothing: readout is last-write-wins per `(owner, entity)` key. -/
theorem applyWs_idem (ws : List (String × String × Value)) :
    ∀ d : DataDict, (∀ w ∈ ws, (dget d w.1).isSome = true) →
    applyWs (applyWs d ws) ws = applyWs d ws := by
  induction ws with
  | nil => intro d _; rfl
  | cons w rest ih =>
    intro d hOP
    have hp : (dget d w.1).isSome = true := hOP w (List.mem_cons_self w rest)
    have hOP' : ∀ w' ∈ rest, (dget (applyW d w) w'.1).isSome = true := by
      intro w' hw'
      rw [isSome_dget_applyW]
      exact hOP w' (List.mem_cons_of_mem w hw')
    rw [applyWs_cons d w rest]
    rw [show applyWs (applyWs (applyW d w) rest) (w :: rest) =
      applyWs (applyW (applyWs (applyW d w) rest) w) rest from rfl]
    have hentS : ∃ inner, dget (applyWs (applyW d w) rest) w.1 = some inner ∧
        (dget inner w.2.1).isSome = true :=
      entry_applyWs rest _ _ _ (entry_after_applyW_self d w hp)
    by_cases hmem : ∃ w' ∈ rest, w'.1 = w.1 ∧ w'.2.1 = w.2.1
    · rw [applyWs_absorb w rest _ hentS hmem]
      exact ih (applyW d w) hOP'
    · have hval : dget2 (applyWs (applyW d w) rest) w.1 w.2.1 = some w.2.2 := by
        rw [dget2_applyWs_other rest _ _ _
          (fun w' hw' hkey => hmem ⟨w', hw', hkey⟩)]
        exact dget2_applyW_self d w hp
      rw [applyW_noop _ w hval]
      exact ih (applyW d w) hOP'

/-- Inversion of `writeOf`. -/
theorem writeOf_some (vs : Dict String PVar) (tns : Dict String (String × String))
    (ls : List String) (i : Nat) (w : String × String × Value)
    (h : writeOf vs tns ls i = some w) :
    ∃ nm pv, ls[i]? = some nm ∧ dget vs nm = some pv ∧
      dget tns nm = some (w.1, w.2.1) ∧ w.2.2 = pv.val := by
  unfold writeOf at h
  split at h
  · cases h
  next nm hnm =>
    split at h
    next pv p e hpv htn =>
      cases h
      exact ⟨nm, pv, hnm, hpv, htn, rfl⟩
    next =>
      cases h

/-- A successful `fetchOne` is exactly one `applyW` of the write read off
the loop-independent state, with the owner key present. -/
theorem fetchOne_eq_applyW (m : Monitor) (ls : List String) (i : Nat) (m₁ : Monitor)
    (h : fetchOne m ls i = some m₁) :
    ∃ w, writeOf m.vars m.target_names ls i = some w ∧
      (dget m.data w.1).isSome = true ∧
      m₁ = { m with data := applyW m.data w } := by
  obtain ⟨nm, pv, p, e, inner, hnm, hpv, htn, hin, hm⟩ := fetchOne_some m ls i m₁ h
  refine ⟨(p, e, pv.val), ?_, by rw [hin]; rfl, ?_⟩
  · simp only [writeOf, hnm, hpv, htn]
  · rw [hm]
    have : applyW m.data (p, e, pv.val) = dset m.data p (dset inner e pv.val) := by
      simp only [applyW, hin]
    rw [this]

/-- Conversely, a write whose owner is present can be fetched. -/
theorem fetchOne_of_writeOf (m : Monitor) (ls : List String) (i : Nat)
    (w : String × String × Value)
    (hw : writeOf m.vars m.target_names ls i = some w)
    (hd : (dget m.data w.1).isSome = true) :
    fetchOne m ls i = some { m with data := applyW m.data w } := by
  obtain ⟨nm, pv, hnm, hpv, htn, hval⟩ := writeOf_some _ _ ls i w hw
  obtain ⟨inner, hin⟩ := Option.isSome_iff_exists.mp hd
  have happ : applyW m.data w = dset m.data w.1 (dset inner w.2.1 w.2.2) := by
    simp only [applyW, hin]
  simp only [fetchOne, hnm, hpv, htn, hin, happ, hval]

/-- A successful readout loop equals applying its write list; in
particular it changes only `data`, and every write's owner was present in
the starting store. -/
theorem loopFetch_eq_applyWs (ls : List String) :
    ∀ (idxs : List Nat) (m m' : Monitor), loopFetch m ls idxs = some m' →
    ∃ ws, wsOfList m.vars m.target_names ls idxs = some ws ∧
      (∀ w ∈ ws, (dget m.data w.1).isSome = true) ∧
      m' = { m with data := applyWs m.data ws } := by
  intro idxs
  induction idxs with
  | nil =>
    intro m m' h
    cases h
    exact ⟨[], rfl, by simp, rfl⟩
  | cons i is ih =>
    intro m m' h
    unfold loopFetch at h
    split at h
    · cases h
    next m₁ hfetch =>
      obtain ⟨w, hw, hdw, hm₁⟩ := fetchOne_eq_applyW m ls i m₁ hfetch
      subst hm₁
      obtain ⟨ws, hws, hOP, hm'⟩ := ih _ m' h
      refine ⟨w :: ws, ?_, ?_, ?_⟩
      · simp only [wsOfList, hw]
        rw [show wsOfList m.vars m.target_names ls is = some ws from hws]
      · intro w' hw'
        rcases List.mem_cons.mp hw' with heq | hmem
        · subst heq
          exact hdw
        · have := hOP w' hmem
          rwa [isSome_dget_applyW] at this
      · exact hm'

/-- Replay: a readout loop that succeeded once succeeds again from any
state with the same buffers and readout index whose store has the same
owner keys. -/
theorem loopFetch_replay (ls : List String) :
    ∀ (idxs : List Nat) (m mb m' : Monitor),
    loopFetch m ls idxs = some m' →
    mb.vars = m.vars → mb.target_names = m.target_names →
    (∀ p, (dget mb.data p).isSome = (dget m.data p).isSome) →
    ∃ mb', loopFetch mb ls idxs = some mb' := by
  intro idxs
  induction idxs with
  | nil =>
    intro m mb m' _ _ _ _
    exact ⟨mb, rfl⟩
  | cons i is ih =>
    intro m mb m' h hv htn hp
    unfold loopFetch at h
    split at h
    · cases h
    next m₁ hfetch =>
      obtain ⟨w, hw, hdw, hm₁⟩ := fetchOne_eq_applyW m ls i m₁ hfetch
      have hwb : writeOf mb.vars mb.target_names ls i = some w := by
        rw [hv, htn]
        exact hw
      have hdb : (dget mb.data w.1).isSome = true := by
        rw [hp w.1]
        exact hdw
      have hfb := fetchOne_of_writeOf mb ls i w hwb hdb
      obtain ⟨mb', hloop⟩ := ih m₁ { mb with data := applyW mb.data w } m' h
        (by rw [hm₁, hv]) (by rw [hm₁, htn])
        (by
          intro p
          rw [hm₁]
          show (dget (applyW mb.data w) p).isSome = (dget (applyW m.data w) p).isSome
          rw [isSome_dget_applyW, isSome_dget_applyW]
          exact hp p)
      refine ⟨mb', ?_⟩
      unfold loopFetch
      rw [hfb]
      exact hloop

theorem applyWs_append (d : DataDict) (ws1 ws2 : List (String × String × Value)) :
    applyWs d (ws1 ++ ws2) = applyWs (applyWs d ws1) ws2 := by
  simp [applyWs, List.foldl_append]

/-- Inversion of `get_data` into its two readout loops. -/
theorem get_data_some (m m₂ : Monitor) (d : DataDict)
    (h : get_data m = some (m₂, d)) :
    ∃ m1, loopFetch m m.varsData2 (List.range m.n_in_ports) = some m1 ∧
      loopFetch m1 m1.varsData1 (List.range m1.n_ref_ports) = some m₂ ∧
      d = m₂.data := by
  unfold get_data at h
  split at h
  · cases h
  next m1 h1 =>
    split at h
    · cases h
    next m2 h2 =>
      cases h
      exact ⟨m1, h1, h2, rfl⟩

/-- Assembling `get_data` from its two readout loops. -/
theorem get_data_build (m a b : Monitor)
    (h1 : loopFetch m m.varsData2 (List.range m.n_in_ports) = some a)
    (h2 : loopFetch a a.varsData1 (List.range a.n_ref_ports) = some b) :
    get_data m = some (b, b.data) := by
  simp only [get_data, h1, h2]

/-- C9: `get_data` is idempotent.  On every reachable state the first call
succeeds; the second call performs exactly the same writes with the same
values (they are read from the untouched buffers), returns the identical
result, and leaves the state — in particular the sample buffers — exactly
as the first call left them (the buffers are never cleared or consumed,
`m₁.vars = m.vars`). -/
theorem c9_get_data_idempotent (m : Monitor) (h : Reachable m) :
    ∃ m₁, get_data m = some (m₁, m₁.data) ∧ m₁.vars = m.vars ∧
      get_data m₁ = some (m₁, m₁.data) := by
  obtain ⟨m₁, hgd, hvars, _, _⟩ := get_data_total m (reachable_monInv m h)
  refine ⟨m₁, hgd, hvars, ?_⟩
  obtain ⟨ma, hl1, hl2, _⟩ := get_data_some m m₁ _ hgd
  obtain ⟨ws₂, hws₂, hOP₂, hma⟩ := loopFetch_eq_applyWs _ _ m ma hl1
  obtain ⟨ws₁, hws₁, hOP₁, hm₁⟩ := loopFetch_eq_applyWs _ _ _ m₁ hl2
  have hmaV : ma.vars = m.vars := by rw [hma]
  have hmaT : ma.target_names = m.target_names := by rw [hma]
  have hmaD : ma.data = applyWs m.data ws₂ := by rw [hma]
  have hmaL1 : ma.varsData1 = m.varsData1 := by rw [hma]
  have hmaL2 : ma.varsData2 = m.varsData2 := by rw [hma]
  have hmaR : ma.n_ref_ports = m.n_ref_ports := by rw [hma]
  have hmaI : ma.n_in_ports = m.n_in_ports := by rw [hma]
  have hm₁V : m₁.vars = ma.vars := by rw [hm₁]
  have hm₁T : m₁.target_names = ma.target_names := by rw [hm₁]
  have hm₁D : m₁.data = applyWs ma.data ws₁ := by rw [hm₁]
  have hm₁L1 : m₁.varsData1 = ma.varsData1 := by rw [hm₁]
  have hm₁L2 : m₁.varsData2 = ma.varsData2 := by rw [hm₁]
  have hm₁R : m₁.n_ref_ports = ma.n_ref_ports := by rw [hm₁]
  have hm₁I : m₁.n_in_ports = ma.n_in_ports := by rw [hm₁]
  have hm₁Dm : m₁.data = applyWs (applyWs m.data ws₂) ws₁ := by
    rw [hm₁D, hmaD]
  -- every write's owner is present already in the original store
  have hOP₁m : ∀ w ∈ ws₁, (dget m.data w.1).isSome = true := by
    intro w hw
    have hx := hOP₁ w hw
    rw [hmaD, isSome_dget_applyWs] at hx
    exact hx
  have hOPall : ∀ w ∈ ws₂ ++ ws₁, (dget m.data w.1).isSome = true := by
    intro w hw
    rcases List.mem_append.mp hw with hw2 | hw1
    · exact hOP₂ w hw2
    · exact hOP₁m w hw1
  have hidem : applyWs (applyWs (applyWs (applyWs m.data ws₂) ws₁) ws₂) ws₁ =
      applyWs (applyWs m.data ws₂) ws₁ := by
    have h0 := applyWs_idem (ws₂ ++ ws₁) m.data hOPall
    simp only [applyWs_append] at h0
    exact h0
  -- replay the first readout loop from the drained state
  obtain ⟨mb, hlb1⟩ := loopFetch_replay m.varsData2 (List.range m.n_in_ports)
    m m₁ ma hl1 (hm₁V.trans hmaV) (hm₁T.trans hmaT)
    (by
      intro p
      rw [hm₁Dm]
      simp only [isSome_dget_applyWs])
  obtain ⟨ws₂', hws₂', _, hmb⟩ := loopFetch_eq_applyWs _ _ m₁ mb hlb1
  rw [hm₁V.trans hmaV, hm₁T.trans hmaT] at hws₂'
  have hws2eq : ws₂' = ws₂ := by
    have hj := hws₂'.symm.trans hws₂
    injection hj
  rw [hws2eq] at hmb
  have hmbV : mb.vars = m₁.vars := by rw [hmb]
  have hmbT : mb.target_names = m₁.target_names := by rw [hmb]
  have hmbD : mb.data = applyWs m₁.data ws₂ := by rw [hmb]
  have hmbL1 : mb.varsData1 = m₁.varsData1 := by rw [hmb]
  have hmbR : mb.n_ref_ports = m₁.n_ref_ports := by rw [hmb]
  -- replay the second readout loop
  obtain ⟨mc, hlc⟩ := loopFetch_replay ma.varsData1 (List.range ma.n_ref_ports)
    ma mb m₁ hl2 (hmbV.trans hm₁V) (hmbT.trans hm₁T)
    (by
      intro p
      rw [hmbD, hm₁Dm, hmaD]
      simp only [isSome_dget_applyWs])
  obtain ⟨ws₁', hws₁', _, hmc⟩ := loopFetch_eq_applyWs _ _ mb mc hlc
  rw [hmbV.trans hm₁V, hmbT.trans hm₁T] at hws₁'
  have hws1eq : ws₁' = ws₁ := by
    have hj := hws₁'.symm.trans hws₁
    injection hj
  rw [hws1eq] at hmc
  -- the second call recomputes the same store
  have hDfix : applyWs (applyWs m₁.data ws₂) ws₁ = m₁.data := by
    rw [hm₁Dm]
    exact hidem
  have hmceq : mc = m₁ := by
    rw [hmc, hmb]
    show ({ m₁ with data := applyWs (applyWs m₁.data ws₂) ws₁ } : Monitor) = m₁
    rw [hDfix]
  have hA : loopFetch m₁ m₁.varsData2 (List.range m₁.n_in_ports) = some mb := by
    rw [hm₁L2, hmaL2, hm₁I, hmaI]
    exact hlb1
  have hB : loopFetch mb mb.varsData1 (List.range mb.n_ref_ports) = some mc := by
    rw [hmbL1, hm₁L1, hmaL1, hmbR, hm₁R, hmaR]
    rw [← hmaL1, ← hmaR]
    exact hlc
  have hfinal := get_data_build m₁ mb mc hA hB
  rw [hmceq] at hfinal
  exact hfinal

/-- Witness for `c9_get_data_idempotent` at the freshly initialized
Monitor. -/
theorem c9_get_data_idempotent_witness :
    ∃ m₁, get_data initMonitor = some (m₁, m₁.data) ∧
      m₁.vars = initMonitor.vars ∧ get_data m₁ = some (m₁, m₁.data) :=
  c9_get_data_idempotent initMonitor Reachable.init

/-! ### C10 — `get_data` returns `self.data` itself, mutated in place -/

/-- C10: `get_data` returns the very dictionary object bound to
`self.data` (line 251 returns the reference, not a copy): the returned
reference is the address bound once in `__init__`, the call never rebinds
it, the heap object at that address now holds the drained contents (the
call populated it by in-place item assignment), and any later `probe` on
the resulting state again mutates the object at that same address — so
the mapping a caller received earlier is that same object and reflects
later probing and readout. -/
theorem c10_get_data_returns_self_data (s s' : HMonitor) (r : Nat)
    (h : getDataH s = some (s', r)) :
    r = s.dataRef ∧ s'.dataRef = s.dataRef ∧
    dget s'.heap s.dataRef = some s'.mon.data ∧
    ∀ t n, (probeH s' t n).1.dataRef = s.dataRef ∧
      dget (probeH s' t n).1.heap s.dataRef =
        some (probeH s' t n).1.mon.data := by
  unfold getDataH at h
  split at h
  · cases h
  next m' d _ =>
    cases h
    refine ⟨rfl, rfl, dget_dset_self _ _ _, ?_⟩
    intro t n
    exact ⟨rfl, dget_dset_self _ _ _⟩

/-- Witness for `c10_get_data_returns_self_data`: on the fresh state,
`get_data` returns the address `0` allocated by `__init__`. -/
theorem c10_get_data_returns_self_data_witness :
    getDataH initH = some (initH, 0) ∧
    (0 = initH.dataRef ∧ initH.dataRef = initH.dataRef ∧
     dget initH.heap initH.dataRef = some initH.mon.data ∧
     ∀ t n, (probeH initH t n).1.dataRef = initH.dataRef ∧
       dget (probeH initH t n).1.heap initH.dataRef =
         some (probeH initH t n).1.mon.data) :=
  ⟨rfl, c10_get_data_returns_self_data initH initH 0 rfl⟩
